import Mathlib

/-!
Library circulation: borrow / return.

A shallow embedding of `library.cpp` (classes `Book`, `User` with its three
derived classes, `Account`, and the `Library` operations `gatherUserBorrowed`,
`userBorrowBook`, `userReturnBook`, `addBook`, `removeBook`, `loadBooks`,
`saveBooks`, `loadAccounts`), followed by theorems about it.

Modelling conventions.

* An `int` value is an `Int`.  The data files can hold any 32-bit value as a
  due date or a fine, so the `int` subtraction of `diffInDays` and the `int`
  arithmetic on overdue days and fines are computed modulo 2^32 (`wrapInt32`),
  as the two's-complement machine computes them.
* `currentDayFromEpoch()` reads the wall clock; its value is the explicit
  parameter `today`, taken to be the same for every read inside one call.  It
  is a clock day, far below the largest `int`: `today + getBorrowDays()` is
  the plain sum.
* The dynamic type of a `User` object (what `dynamic_cast` and virtual dispatch
  inspect) is the field `role`.
* `Library::books` is a `List Book`; a `Book*` into it is a position in the
  list.  A position outside the list is an invalid pointer: dereferencing it
  has no defined behaviour, and the operations return `none` at that point.
* What the operations print on `cout` is returned as a list of `Msg`.
-/

namespace LibrarySystem

/-- The 32-bit `int` that a computation with the mathematical result `n`
yields: `n` modulo 2^32, taken between -2^31 and 2^31 - 1. -/
def wrapInt32 (n : Int) : Int :=
  (n + 2147483648) % 4294967296 - 2147483648

/-- Compute difference in days, `diffInDays(day1, day2)`: the `int` subtraction
`day1 - day2`. -/
def diffInDays (day1 day2 : Int) : Int :=
  wrapInt32 (day1 - day2)

/-- Class `Book`. -/
structure Book where
  title : String
  author : String
  isbn : String
  publisher : String
  year : Int
  status : String
  borrowDate : Int
  dueDate : Int
  borrowedBy : String
  deriving DecidableEq, Repr

namespace Book

/-- The constructor `Book(t, a, i, p, y)`. -/
def mk5 (t a i p : String) (y : Int) : Book :=
  { title := t, author := a, isbn := i, publisher := p, year := y,
    status := "Available", borrowDate := 0, dueDate := 0, borrowedBy := "-None-" }

def getTitle (b : Book) : String := b.title
def getStatus (b : Book) : String := b.status
def getBorrowDate (b : Book) : Int := b.borrowDate
def getDueDate (b : Book) : Int := b.dueDate
def getBorrowedBy (b : Book) : String := b.borrowedBy

def setStatus (b : Book) (s : String) : Book := { b with status := s }
def setBorrowDate (b : Book) (bd : Int) : Book := { b with borrowDate := bd }
def setDueDate (b : Book) (dd : Int) : Book := { b with dueDate := dd }
def setBorrowedBy (b : Book) (s : String) : Book := { b with borrowedBy := s }

end Book

/-- The dynamic type of a `User` object. -/
inductive Role where
  | student
  | faculty
  | librarian
  deriving DecidableEq, Repr

/-- Class `User` (the fields of the base class, and the dynamic type). -/
structure User where
  name : String
  userID : String
  fine : Int
  borrowHistory : List String
  role : Role
  deriving DecidableEq, Repr

/-- A `Book*` held in a `vector<Book*>`: the position in `Library::books`
together with the record found there. -/
abbrev BookPtr := Nat × Book

namespace Student

def MAX_BOOKS : Int := 3
def BORROW_DAYS : Int := 15
def FINE_RATE : Int := 10

end Student

namespace Faculty

def MAX_BOOKS : Int := 5
def BORROW_DAYS : Int := 30

end Faculty

namespace User

def getUserID (u : User) : String := u.userID
def getFine (u : User) : Int := u.fine
def setFine (u : User) (f : Int) : User := { u with fine := f }

/-- `User::addHistory`: `borrowHistory.push_back(title)`. -/
def addHistory (u : User) (title : String) : User :=
  { u with borrowHistory := u.borrowHistory ++ [title] }

/-- `hasUnpaidFines` (virtual; the base version and the `Student` override
compute the same thing). -/
def hasUnpaidFines (u : User) : Bool :=
  match u.role with
  | Role.student => decide (u.getFine > 0)
  | _ => decide (u.fine > 0)

/-- `canBorrowMore` (pure virtual; one case per derived class). -/
def canBorrowMore (u : User) (myBooks : List BookPtr) : Bool :=
  match u.role with
  | Role.student =>
      if u.hasUnpaidFines then false
      else if (myBooks.length : Int) ≥ Student.MAX_BOOKS then false
      else true
  | Role.faculty =>
      if (myBooks.length : Int) ≥ Faculty.MAX_BOOKS then false
      else true
  | Role.librarian => false

/-- `getBorrowDays` (pure virtual; one case per derived class). -/
def getBorrowDays (u : User) : Int :=
  match u.role with
  | Role.student => Student.BORROW_DAYS
  | Role.faculty => Faculty.BORROW_DAYS
  | Role.librarian => 0

/-- `handleOverdueBook` (pure virtual; one case per derived class). -/
def handleOverdueBook (u : User) (daysOverdue : Int) : User :=
  match u.role with
  | Role.student =>
      if daysOverdue > 0 then
        u.setFine (wrapInt32 (u.getFine + wrapInt32 (daysOverdue * Student.FINE_RATE)))
      else u
  | Role.faculty => u
  | Role.librarian => u

end User

/-- The lines `userBorrowBook` and `userReturnBook` write to `cout`. -/
inductive Msg where
  /-- Prints "Cannot borrow. You have reached the borrowing limit or have unpaid fines." -/
  | cannotBorrowLimitOrFines
  /-- Prints "Faculty cannot borrow more books as they have an overdue book exceeding 60 days." -/
  | facultyOverdueExceeds60
  /-- Prints "Book is already borrowed." -/
  | alreadyBorrowed
  /-- Prints "Successfully borrowed: (title). Due in (days) days." -/
  | successfullyBorrowed (title : String) (days : Int)
  /-- Prints "Book not borrowed." -/
  | bookNotBorrowed
  /-- Prints the line saying that the book is not borrowed by this user. -/
  | notBorrowedByYou
  /-- Prints "Student was fined (amount) rupees for overdue." -/
  | studentFined (amount : Int)
  /-- Prints "Faculty cannot borrow new books until this overdue book is cleared." -/
  | facultyBlockedNotice
  /-- Prints "Returned on time." -/
  | returnedOnTime
  /-- Prints "Book returned successfully." -/
  | bookReturned
  deriving DecidableEq, Repr

/-- The loop of `Library::gatherUserBorrowed`, started at position `k`. -/
def gatherFrom (userID : String) : Nat → List Book → List BookPtr
  | _, [] => []
  | k, bk :: rest =>
      if bk.getBorrowedBy = userID ∧ bk.getStatus = "Borrowed" then
        (k, bk) :: gatherFrom userID (k + 1) rest
      else gatherFrom userID (k + 1) rest

/-- `Library::gatherUserBorrowed`. -/
def gatherUserBorrowed (books : List Book) (userID : String) : List BookPtr :=
  gatherFrom userID 0 books

/-- The `for` loop of the Faculty branch of `userBorrowBook`: is there a held
book with `overdueDays > 60`? -/
def anyOverdue60 (today : Int) : List BookPtr → Bool
  | [] => false
  | bk :: rest =>
      if diffInDays today bk.2.getDueDate > 60 then true
      else anyOverdue60 today rest

/-- `Library::userBorrowBook(u, b)`, with `b` the position `i` of `books`. -/
def userBorrowBook (today : Int) (books : List Book) (u : User) (i : Nat) :
    Option (List Book × User × List Msg) :=
  if u.role = Role.student ∧
      u.canBorrowMore (gatherUserBorrowed books u.getUserID) = false then
    some (books, u, [Msg.cannotBorrowLimitOrFines])
  else if u.role = Role.faculty ∧
      anyOverdue60 today (gatherUserBorrowed books u.getUserID) = true then
    some (books, u, [Msg.facultyOverdueExceeds60])
  else
    match books[i]? with
    | none => none
    | some b =>
        if b.getStatus = "Borrowed" then
          some (books, u, [Msg.alreadyBorrowed])
        else
          let b1 := b.setStatus "Borrowed"
          let b2 := b1.setBorrowedBy u.getUserID
          let borrowDay := today
          let dueDay := borrowDay + u.getBorrowDays
          let b3 := b2.setBorrowDate borrowDay
          let b4 := b3.setDueDate dueDay
          some (books.set i b4, u, [Msg.successfullyBorrowed b4.getTitle u.getBorrowDays])

/-- `Library::userReturnBook(u, b)`, with `b` the position `i` of `books`. -/
def userReturnBook (today : Int) (books : List Book) (u : User) (i : Nat) :
    Option (List Book × User × List Msg) :=
  match books[i]? with
  | none => none
  | some b =>
      if b.getStatus = "Available" then
        some (books, u, [Msg.bookNotBorrowed])
      else if b.getBorrowedBy ≠ u.getUserID then
        some (books, u, [Msg.notBorrowedByYou])
      else
        let overdueDays := diffInDays today b.getDueDate
        let r : User × List Msg :=
          if overdueDays > 0 then
            let r1 : User × List Msg :=
              if u.role = Role.student then
                (u.handleOverdueBook overdueDays,
                  [Msg.studentFined (wrapInt32 (overdueDays * 10))])
              else (u, [])
            if u.role = Role.faculty ∧ overdueDays > 60 then
              (r1.1, r1.2 ++ [Msg.facultyBlockedNotice])
            else r1
          else (u, [Msg.returnedOnTime])
        let b1 := b.setStatus "Available"
        let b2 := b1.setBorrowedBy "-None-"
        let b3 := b2.setBorrowDate 0
        let b4 := b3.setDueDate 0
        some (books.set i b4, r.1.addHistory b4.getTitle, r.2 ++ [Msg.bookReturned])

/-! ## Paying fines -/

/-- The lines `Student::payFines` writes to `cout`. -/
inductive PayMsg where
  /-- Prints "No fines to pay." -/
  | noFinesToPay
  /-- Prints "Your total fine is (fine) rupees." and asks "Pay now? (y/n): ". -/
  | payNowPrompt (fine : Int)
  /-- Prints "Fines cleared." -/
  | finesCleared
  /-- Prints "Cancelled." -/
  | cancelled
  deriving DecidableEq, Repr

/-- `Student::payFines`; `c` is the character that `cin >> c` stores, read only
when the prompt has been printed. -/
def Student.payFines (u : User) (c : Char) : User × List PayMsg :=
  if u.getFine = 0 then
    (u, [PayMsg.noFinesToPay])
  else if c = 'y' ∨ c = 'Y' then
    (u.setFine 0, [PayMsg.payNowPrompt u.getFine, PayMsg.finesCleared])
  else
    (u, [PayMsg.payNowPrompt u.getFine, PayMsg.cancelled])

/-- `payFines` (virtual): the empty body of `User::payFines` for Faculty and
Librarian, the override for Student. -/
def User.payFines (u : User) (c : Char) : User × List PayMsg :=
  match u.role with
  | Role.student => Student.payFines u c
  | Role.faculty => (u, [])
  | Role.librarian => (u, [])

/-! ## Librarian actions -/

/-- The default constructor `Book()`. -/
def Book.mk0 : Book :=
  { title := "", author := "", isbn := "", publisher := "", year := 0,
    status := "Available", borrowDate := 0, dueDate := 0, borrowedBy := "-None-" }

/-- The lines `addBook` and `removeBook` write to `cout`. -/
inductive ShelfMsg where
  /-- Prints "Book added." -/
  | bookAdded
  /-- Prints "No book with that title." -/
  | noBookWithThatTitle
  /-- Prints "Removed." -/
  | removed
  deriving DecidableEq, Repr

/-- `Library::addBook`: `books.push_back(Book(t, a, i, p, y))`. -/
def addBook (books : List Book) (t a i p : String) (y : Int) : List Book × List ShelfMsg :=
  (books ++ [Book.mk5 t a i p y], [ShelfMsg.bookAdded])

/-- `std::remove_if` over the whole vector: the elements it keeps, in the order
in which it moves them to the front; the iterator it returns points just after
them. -/
def remove_if (pred : Book → Bool) : List Book → List Book
  | [] => []
  | b :: rest => if pred b then remove_if pred rest else b :: remove_if pred rest

/-- `Library::removeBook`.  The iterator `it` is the position
`(remove_if ..).length`; it equals `books.end()` when nothing was removed, and
otherwise `erase(it, end)` cuts the vector down to the kept elements. -/
def removeBook (books : List Book) (title : String) : List Book × List ShelfMsg :=
  let kept := remove_if (fun b => decide (b.getTitle = title)) books
  if kept.length = books.length then
    (kept, [ShelfMsg.noBookWithThatTitle])
  else
    (kept, [ShelfMsg.removed])

/-! ## The Book Record invariant of the specification -/

/-- The invariant the specification states for a Book Record:
status = Available ⇔ borrowedBy = sentinel ⇔ borrowDate = dueDate = 0. -/
def Book.specInvariant (b : Book) : Prop :=
  (b.status = "Available" ↔ b.borrowedBy = "-None-") ∧
  (b.borrowedBy = "-None-" ↔ (b.borrowDate = 0 ∧ b.dueDate = 0))

instance (b : Book) : Decidable b.specInvariant := by
  unfold Book.specInvariant
  exact inferInstance

/-! ## Reading the data files

A `std::string` is a `String`, one `Char` per `char`, and `size()` is the number
of characters.  The content of a file is a `String`; a file that cannot be
opened is `none`.  `std::stoi` throws on some inputs and neither loader catches
the exception: a load that throws returns `none`. -/

namespace Book

def setTitle (b : Book) (s : String) : Book := { b with title := s }
def setAuthor (b : Book) (s : String) : Book := { b with author := s }
def setISBN (b : Book) (s : String) : Book := { b with isbn := s }
def setPublisher (b : Book) (s : String) : Book := { b with publisher := s }
def setYear (b : Book) (y : Int) : Book := { b with year := y }

end Book

/-- The loop `while (getline(in, temp, delim)) tok.push_back(temp);` of the
C++ standard library on the characters still to be read: every delimiter ends a
piece, and the characters after the last delimiter form a piece only when there
are some.  `cur` holds the characters read since the last delimiter, latest
first. -/
def getlineLoop (delim : Char) : List Char → List Char → List String
  | [], cur => if cur = [] then [] else [String.mk cur.reverse]
  | c :: rest, cur =>
      if c = delim then String.mk cur.reverse :: getlineLoop delim rest []
      else getlineLoop delim rest (c :: cur)

/-- The lines of a file, as successive `getline(fin, line)` calls return them. -/
def fileLines (text : String) : List String :=
  getlineLoop (Char.ofNat 10) text.toList []

/-- The fields of a line, as `getline(ss, temp, ',')` returns them. -/
def splitFields (line : String) : List String :=
  getlineLoop ',' line.toList []

/-- `isspace` of the C locale: space, tab, line feed, vertical tab, form feed,
carriage return. -/
def isspace (c : Char) : Bool :=
  c = ' ' || (9 ≤ c.toNat && c.toNat ≤ 13)

/-- The value of a run of decimal digits. -/
def digitsValue (ds : List Char) : Nat :=
  ds.foldl (fun acc c => acc * 10 + (c.toNat - 48)) 0

/-- `std::stoi(s)` of the C++ standard library (base 10, 32-bit `int`): skip
leading white space, read an optional sign and the longest run of digits.
`none` stands for the exception it throws: `std::invalid_argument` when there is
no digit to read, `std::out_of_range` when the value does not fit an `int`. -/
def stoi (s : String) : Option Int :=
  let cs := s.toList.dropWhile isspace
  let neg : Bool := match cs with
    | '-' :: _ => true
    | _ => false
  let body : List Char := match cs with
    | '-' :: r => r
    | '+' :: r => r
    | _ => cs
  let ds := body.takeWhile Char.isDigit
  if ds = [] then none
  else
    let v : Int := if neg then -(digitsValue ds : Int) else (digitsValue ds : Int)
    if v < -2147483648 ∨ v > 2147483647 then none
    else some v

/-- The lines the two loaders write to `cerr`. -/
inductive LoadMsg where
  /-- Prints "Could not open (fname). Will create on save." -/
  | couldNotOpen (fname : String)
  /-- Prints "Unknown role: (role)". -/
  | unknownRole (role : String)
  deriving DecidableEq, Repr

/-- The body of the `while (getline(fin, line))` loop of `loadBooks`, for one
line. -/
def loadBooksLine (books : List Book) (line : String) : Option (List Book) :=
  if line.length < 5 then some books
  else
    let tok := splitFields line
    if tok.length < 9 then some books
    else
      let b := Book.mk0
      let b := b.setTitle (tok.getD 0 "")
      let b := b.setAuthor (tok.getD 1 "")
      let b := b.setISBN (tok.getD 2 "")
      let b := b.setPublisher (tok.getD 3 "")
      match stoi (tok.getD 4 "") with
      | none => none
      | some year =>
        let b := b.setYear year
        let b := b.setStatus (tok.getD 5 "")
        match stoi (tok.getD 6 "") with
        | none => none
        | some bd =>
          let b := b.setBorrowDate bd
          match stoi (tok.getD 7 "") with
          | none => none
          | some dd =>
            let b := b.setDueDate dd
            let b := b.setBorrowedBy (tok.getD 8 "")
            some (books ++ [b])

/-- The `while (getline(fin, line))` loop of `loadBooks`. -/
def loadBooksLoop (books : List Book) : List String → Option (List Book)
  | [] => some books
  | line :: rest =>
      match loadBooksLine books line with
      | none => none
      | some books1 => loadBooksLoop books1 rest

/-- `Library::loadBooks(fname)`; `file` is the content of the file `fname`. -/
def loadBooks (books : List Book) (fname : String) (file : Option String) :
    Option (List Book × List LoadMsg) :=
  match file with
  | none => some (books, [LoadMsg.couldNotOpen fname])
  | some text =>
      match loadBooksLoop books (fileLines text) with
      | none => none
      | some books1 => some (books1, [])

/-- Class `Account`; `userPtr` is the `User` object the account owns. -/
structure Account where
  username : String
  password : String
  role : String
  userPtr : User
  deriving DecidableEq, Repr

/-- The constructors `Student(nm, id)`, `Faculty(nm, id)`, `Librarian(nm, id)`:
the base constructor `User(nm, id)` with the dynamic type `r`. -/
def User.new (nm id : String) (r : Role) : User :=
  { name := nm, userID := id, fine := 0, borrowHistory := [], role := r }

/-- The loop `for (i = 5; i < tok.size(); i++) if (!tok[i].empty()) addHistory(tok[i])`
on the tokens from position 5 on. -/
def addHistoryTokens (u : User) : List String → User
  | [] => u
  | t :: rest =>
      if t ≠ "" then addHistoryTokens (u.addHistory t) rest
      else addHistoryTokens u rest

/-- The body of the `while (getline(fin, line))` loop of `loadAccounts`, for
one line; the state is `accounts` and what has been written to `cerr`. -/
def loadAccountsLine (st : List Account × List LoadMsg) (line : String) :
    Option (List Account × List LoadMsg) :=
  if line.length < 5 then some st
  else
    let tok := splitFields line
    if tok.length < 5 then some st
    else
      let un := tok.getD 0 ""
      let pw := tok.getD 1 ""
      let role := tok.getD 2 ""
      let uid := tok.getD 3 ""
      match stoi (tok.getD 4 "") with
      | none => none
      | some fn =>
        let made : Option User :=
          if role = "student" then some ((User.new un uid Role.student).setFine fn)
          else if role = "faculty" then some ((User.new un uid Role.faculty).setFine fn)
          else if role = "librarian" then some ((User.new un uid Role.librarian).setFine fn)
          else none
        match made with
        | none => some (st.1, st.2 ++ [LoadMsg.unknownRole role])
        | some uptr =>
          let uptr := addHistoryTokens uptr (tok.drop 5)
          some (st.1 ++ [Account.mk un pw role uptr], st.2)

/-- The `while (getline(fin, line))` loop of `loadAccounts`. -/
def loadAccountsLoop (st : List Account × List LoadMsg) :
    List String → Option (List Account × List LoadMsg)
  | [] => some st
  | line :: rest =>
      match loadAccountsLine st line with
      | none => none
      | some st1 => loadAccountsLoop st1 rest

/-- `Library::loadAccounts(fname)`; `file` is the content of the file `fname`. -/
def loadAccounts (accounts : List Account) (fname : String) (file : Option String) :
    Option (List Account × List LoadMsg) :=
  match file with
  | none => some (accounts, [LoadMsg.couldNotOpen fname])
  | some text => loadAccountsLoop (accounts, []) (fileLines text)

/-- The invariant the specification states for an Account: the role tag agrees
with the variant of the owned User. -/
def Account.roleAgrees (acc : Account) : Prop :=
  (acc.role = "student" ∧ acc.userPtr.role = Role.student) ∨
  (acc.role = "faculty" ∧ acc.userPtr.role = Role.faculty) ∨
  (acc.role = "librarian" ∧ acc.userPtr.role = Role.librarian)

instance (acc : Account) : Decidable acc.roleAgrees := by
  unfold Account.roleAgrees
  exact inferInstance

/-! ## Sequences of calls -/

/-- One call of the circulation engine: the operation, the day on which it
runs, the `User` object passed and the position of the book passed. -/
inductive Call where
  | borrow (today : Int) (u : User) (i : Nat)
  | giveBack (today : Int) (u : User) (i : Nat)
  deriving DecidableEq, Repr

/-- The user of a call. -/
def Call.user : Call → User
  | Call.borrow _ u _ => u
  | Call.giveBack _ u _ => u

/-- The book position of a call. -/
def Call.index : Call → Nat
  | Call.borrow _ _ i => i
  | Call.giveBack _ _ i => i

/-- The catalog after a sequence of `userBorrowBook` / `userReturnBook` calls,
`none` when one of them is given an invalid book pointer.  Each call carries the
state of the `User` object at that moment, which may be any state: the fine and
the history are also changed outside the two operations (`payFines`). -/
def runCalls (books : List Book) : List Call → Option (List Book)
  | [] => some books
  | Call.borrow today u i :: rest =>
      match userBorrowBook today books u i with
      | none => none
      | some r => runCalls r.1 rest
  | Call.giveBack today u i :: rest =>
      match userReturnBook today books u i with
      | none => none
      | some r => runCalls r.1 rest

/-- The number of books of the catalog that `userID` holds: `borrowedBy` is
`userID` and the status is "Borrowed". -/
def heldCount (books : List Book) (userID : String) : Nat :=
  (books.filter (fun bk => decide (bk.borrowedBy = userID ∧ bk.status = "Borrowed"))).length

/-! ## Writing the catalog file -/

namespace Book

def getAuthor (b : Book) : String := b.author
def getISBN (b : Book) : String := b.isbn
def getPublisher (b : Book) : String := b.publisher
def getYear (b : Book) : Int := b.year

end Book

/-- The decimal digits of `n`, most significant first, put in front of `acc`;
`fuel` bounds the number of digits. -/
def showNatLoop : Nat → Nat → List Char → List Char
  | 0, _, acc => acc
  | fuel + 1, n, acc =>
      let acc1 := Char.ofNat (48 + n % 10) :: acc
      if n / 10 = 0 then acc1 else showNatLoop fuel (n / 10) acc1

/-- The characters `fout << n` writes for an `int` `n`, by the C++ standard
library: the decimal digits, after a minus sign when `n` is negative. -/
def showInt (n : Int) : String :=
  if n < 0 then String.mk ('-' :: showNatLoop (n.natAbs + 1) n.natAbs [])
  else String.mk (showNatLoop (n.toNat + 1) n.toNat [])

/-- The characters one turn of the loop of `saveBooks` writes for the book `b`,
the line break apart. -/
def saveBooksLine (b : Book) : String :=
  b.getTitle ++ "," ++ b.getAuthor ++ "," ++ b.getISBN ++ "," ++ b.getPublisher ++ ","
    ++ showInt b.getYear ++ "," ++ b.getStatus ++ "," ++ showInt b.getBorrowDate ++ ","
    ++ showInt b.getDueDate ++ "," ++ b.getBorrowedBy

/-- The loop of `saveBooks` on the books still to be written: a line break
follows every book but the last (`i < books.size() - 1`). -/
def saveBooksLoop : List Book → String
  | [] => ""
  | b :: rest =>
      if rest = [] then saveBooksLine b
      else saveBooksLine b ++ "\n" ++ saveBooksLoop rest

/-- `Library::saveBooks(fname)`: the content of the file after the call. -/
def saveBooks (books : List Book) : String :=
  saveBooksLoop books

/-- A value of the 32-bit type `int`. -/
def isInt32 (n : Int) : Prop :=
  -2147483648 ≤ n ∧ n ≤ 2147483647

instance (n : Int) : Decidable (isInt32 n) := by
  unfold isInt32
  exact inferInstance

/-- A text without comma and without line break. -/
def plainText (s : String) : Prop :=
  ',' ∉ s.toList ∧ Char.ofNat 10 ∉ s.toList

instance (s : String) : Decidable (plainText s) := by
  unfold plainText
  exact inferInstance

/-- The condition of the round trip on one book: the six text fields are plain
and the three numbers are `int` values. -/
def Book.plain (b : Book) : Prop :=
  plainText b.title ∧ plainText b.author ∧ plainText b.isbn ∧ plainText b.publisher ∧
  plainText b.status ∧ plainText b.borrowedBy ∧
  isInt32 b.year ∧ isInt32 b.borrowDate ∧ isInt32 b.dueDate

instance (b : Book) : Decidable b.plain := by
  unfold Book.plain
  exact inferInstance

/-- A decimal digit character. -/
def isDigitChar (c : Char) : Prop :=
  ∃ d, d < 10 ∧ c = Char.ofNat (48 + d)

/-! ## Example data -/

/-- An available book, as `addBook` creates it. -/
def exBook (t : String) : Book :=
  Book.mk5 t "Author" "000" "Press" 2001

/-- A book on loan to `uid`, due on day `due`. -/
def exLoan (t uid : String) (due : Int) : Book :=
  { exBook t with status := "Borrowed", borrowedBy := uid, borrowDate := due - 15, dueDate := due }

/-- A book on loan to `uid` since day 0, with the due date `due` as the data
file states it. -/
def exLoanDue (t uid : String) (due : Int) : Book :=
  { exBook t with status := "Borrowed", borrowedBy := uid, borrowDate := 0, dueDate := due }

/-- A user with the given identifier, role and fine, and an empty history. -/
def exUser (uid : String) (r : Role) (f : Int) : User :=
  { name := "N", userID := uid, fine := f, borrowHistory := [], role := r }

/-- Five books on loan to the Faculty user "f1", none of them overdue on day
100, and a sixth book that is available. -/
def exFacultyShelf : List Book :=
  [exLoan "A" "f1" 130, exLoan "B" "f1" 130, exLoan "C" "f1" 130, exLoan "D" "f1" 130,
   exLoan "E" "f1" 130, exBook "F"]

/-! ## Auxiliary facts -/

theorem gatherFrom_mem (userID : String) (books : List Book) (k : Nat) (p : BookPtr) :
    p ∈ gatherFrom userID k books ↔
      ∃ n, p.1 = k + n ∧ books[n]? = some p.2 ∧
        p.2.borrowedBy = userID ∧ p.2.status = "Borrowed" := by
  induction books generalizing k with
  | nil => simp [gatherFrom]
  | cons bk rest ih =>
    unfold gatherFrom
    constructor
    · intro h
      split at h
      · rename_i hc
        rcases List.mem_cons.mp h with h | h
        · subst h
          exact ⟨0, by simp, by simp, hc.1, hc.2⟩
        · obtain ⟨n, h1, h2, h3⟩ := (ih (k + 1) ).mp h
          exact ⟨n + 1, by omega, by simpa using h2, h3⟩
      · obtain ⟨n, h1, h2, h3⟩ := (ih (k + 1)).mp h
        exact ⟨n + 1, by omega, by simpa using h2, h3⟩
    · rintro ⟨n, h1, h2, h3, h4⟩
      cases n with
      | zero =>
        simp at h2
        subst h2
        have hp : p = (k, p.2) := by
          cases p; simp at h1; simp [h1]
        rw [if_pos ⟨h3, h4⟩, hp]
        exact List.mem_cons_self _ _
      | succ m =>
        have hm : p ∈ gatherFrom userID (k + 1) rest :=
          (ih (k + 1)).mpr ⟨m, by omega, by simpa using h2, h3, h4⟩
        split
        · exact List.mem_cons_of_mem _ hm
        · exact hm

theorem gatherUserBorrowed_mem (books : List Book) (userID : String) (p : BookPtr) :
    p ∈ gatherUserBorrowed books userID ↔
      books[p.1]? = some p.2 ∧ p.2.borrowedBy = userID ∧ p.2.status = "Borrowed" := by
  unfold gatherUserBorrowed
  rw [gatherFrom_mem]
  constructor
  · rintro ⟨n, h1, h2, h3⟩
    have : p.1 = n := by omega
    rw [this]
    exact ⟨h2, h3⟩
  · rintro ⟨h1, h2⟩
    exact ⟨p.1, by omega, h1, h2⟩

theorem gatherFrom_length (userID : String) (books : List Book) (k : Nat) :
    (gatherFrom userID k books).length =
      (books.filter (fun bk => decide (bk.borrowedBy = userID ∧ bk.status = "Borrowed"))).length := by
  induction books generalizing k with
  | nil => simp [gatherFrom]
  | cons bk rest ih =>
    unfold gatherFrom
    by_cases hc : bk.borrowedBy = userID ∧ bk.status = "Borrowed"
    · have hd : decide (bk.borrowedBy = userID ∧ bk.status = "Borrowed") = true := by
        simpa using hc
      have hc2 : bk.getBorrowedBy = userID ∧ bk.getStatus = "Borrowed" := hc
      rw [if_pos hc2]
      simp [List.filter_cons, hc.1, hc.2, ih (k + 1)]
    · have hd : ¬ decide (bk.borrowedBy = userID ∧ bk.status = "Borrowed") = true := by
        simpa using hc
      have hc2 : ¬ (bk.getBorrowedBy = userID ∧ bk.getStatus = "Borrowed") := hc
      rw [if_neg hc2, ih (k + 1)]
      simp [List.filter_cons, hc]

theorem anyOverdue60_eq_true (today : Int) (l : List BookPtr) :
    anyOverdue60 today l = true ↔ ∃ p ∈ l, diffInDays today p.2.dueDate > 60 := by
  induction l with
  | nil => simp [anyOverdue60]
  | cons bk rest ih =>
    unfold anyOverdue60
    by_cases hc : diffInDays today bk.2.getDueDate > 60
    · rw [if_pos hc]
      simp only [true_iff]
      exact ⟨bk, List.mem_cons_self _ _, hc⟩
    · rw [if_neg hc, ih]
      constructor
      · rintro ⟨p, hp, h⟩
        exact ⟨p, List.mem_cons_of_mem _ hp, h⟩
      · rintro ⟨p, hp, h⟩
        rcases List.mem_cons.mp hp with h1 | h1
        · subst h1
          exact absurd h hc
        · exact ⟨p, h1, h⟩

/-- Writing back the record already stored at a position changes nothing. -/
theorem set_same (books : List Book) (i : Nat) (b : Book) (hb : books[i]? = some b) :
    books.set i b = books := by
  apply List.ext_getElem?
  intro n
  by_cases hn : i = n
  · subst hn
    have hlt : i < books.length := (List.getElem?_eq_some_iff.mp hb).1
    simp [List.getElem?_set, hlt, hb]
  · simp [List.getElem?_set_ne hn]

/-- A 32-bit computation whose mathematical result is an `int` value yields that
value. -/
theorem wrapInt32_eq (n : Int) (h : isInt32 n) : wrapInt32 n = n := by
  unfold isInt32 at h
  unfold wrapInt32
  omega

/-- The difference of a day and itself. -/
theorem diffInDays_self (day : Int) : diffInDays day day = 0 := by
  unfold diffInDays
  rw [Int.sub_self]
  decide

/-! ## Borrow -/

/-- What `userBorrowBook` returns once both role checks let the user through
and the book is not "Borrowed". -/
theorem userBorrowBook_accept (today : Int) (books : List Book) (u : User) (i : Nat)
    (b : Book) (hb : books[i]? = some b)
    (hS : u.role = Role.student →
      u.canBorrowMore (gatherUserBorrowed books u.userID) = true)
    (hF : u.role = Role.faculty →
      ∀ p ∈ gatherUserBorrowed books u.userID, ¬ diffInDays today p.2.dueDate > 60)
    (hst : b.status ≠ "Borrowed") :
    userBorrowBook today books u i =
      some (books.set i { b with status := "Borrowed", borrowedBy := u.userID,
                                 borrowDate := today, dueDate := today + u.getBorrowDays },
            u, [Msg.successfullyBorrowed b.title u.getBorrowDays]) := by
  unfold userBorrowBook
  have h1 : ¬ (u.role = Role.student ∧
      u.canBorrowMore (gatherUserBorrowed books u.getUserID) = false) := by
    rintro ⟨hr, hc⟩
    have := hS hr
    simp [User.getUserID] at hc
    rw [this] at hc
    exact Bool.noConfusion hc
  have h2 : ¬ (u.role = Role.faculty ∧
      anyOverdue60 today (gatherUserBorrowed books u.getUserID) = true) := by
    rintro ⟨hr, hc⟩
    obtain ⟨p, hp, hd⟩ := (anyOverdue60_eq_true _ _).mp hc
    exact hF hr p hp hd
  have h3 : ¬ b.getStatus = "Borrowed" := hst
  rw [if_neg h1, if_neg h2, hb]
  simp only [if_neg h3]
  rfl

/-- C1: when the user passes the role check of `userBorrowBook` and the book is
not "Borrowed", the call succeeds and the book becomes Borrowed, held by the
user, with `borrowDate = today` and `dueDate = today + loan period`, the loan
period being 15 for a Student, 30 for a Faculty and 0 for a Librarian. -/
theorem userBorrowBook_success (today : Int) (books : List Book) (u : User) (i : Nat)
    (b : Book) (hb : books[i]? = some b)
    (hS : u.role = Role.student →
      u.canBorrowMore (gatherUserBorrowed books u.userID) = true)
    (hF : u.role = Role.faculty →
      ∀ p ∈ gatherUserBorrowed books u.userID, ¬ diffInDays today p.2.dueDate > 60)
    (hst : b.status ≠ "Borrowed") :
    ∃ b1 days,
      userBorrowBook today books u i =
        some (books.set i b1, u, [Msg.successfullyBorrowed b.title days]) ∧
      (books.set i b1)[i]? = some b1 ∧
      b1.status = "Borrowed" ∧ b1.borrowedBy = u.userID ∧
      b1.borrowDate = today ∧ b1.dueDate = today + days ∧
      (u.role = Role.student → days = 15) ∧
      (u.role = Role.faculty → days = 30) ∧
      (u.role = Role.librarian → days = 0) := by
  have hlt : i < books.length := (List.getElem?_eq_some_iff.mp hb).1
  refine ⟨_, _, userBorrowBook_accept today books u i b hb hS hF hst, ?_, rfl, rfl, rfl, rfl,
    ?_, ?_, ?_⟩
  · simp [List.getElem?_set, hlt]
  · intro hr; simp [User.getBorrowDays, hr, Student.BORROW_DAYS]
  · intro hr; simp [User.getBorrowDays, hr, Faculty.BORROW_DAYS]
  · intro hr; simp [User.getBorrowDays, hr]

/-- Witness for C1: a Student without fines or loans borrows an available book
on day 100. -/
theorem userBorrowBook_success_witness :
    ∃ b1 days,
      userBorrowBook 100 [exBook "T"] (exUser "s1" Role.student 0) 0 =
        some ([exBook "T"].set 0 b1, exUser "s1" Role.student 0,
          [Msg.successfullyBorrowed (exBook "T").title days]) ∧
      ([exBook "T"].set 0 b1)[0]? = some b1 ∧
      b1.status = "Borrowed" ∧ b1.borrowedBy = (exUser "s1" Role.student 0).userID ∧
      b1.borrowDate = 100 ∧ b1.dueDate = 100 + days ∧
      ((exUser "s1" Role.student 0).role = Role.student → days = 15) ∧
      ((exUser "s1" Role.student 0).role = Role.faculty → days = 30) ∧
      ((exUser "s1" Role.student 0).role = Role.librarian → days = 0) :=
  userBorrowBook_success 100 [exBook "T"] (exUser "s1" Role.student 0) 0 (exBook "T") rfl
    (fun _ => by decide) (fun h => absurd h (by decide)) (by decide)

/-! ## Return -/

/-- The user record `userReturnBook` leaves once the overdue branch has run. -/
theorem userReturnBook_eq (today : Int) (books : List Book) (u : User) (i : Nat) (b : Book)
    (hb : books[i]? = some b) (hst : b.status ≠ "Available") (hby : b.borrowedBy = u.userID) :
    ∃ u1 out,
      userReturnBook today books u i =
        some (books.set i { b with status := "Available", borrowedBy := "-None-",
                                   borrowDate := 0, dueDate := 0 },
              u1, out) ∧
      u1.borrowHistory = u.borrowHistory ++ [b.title] ∧
      u1.name = u.name ∧ u1.userID = u.userID ∧ u1.role = u.role ∧
      u1.fine =
        (if diffInDays today b.dueDate > 0 ∧ u.role = Role.student then
          wrapInt32 (u.fine + wrapInt32 (diffInDays today b.dueDate * 10))
         else u.fine) := by
  have h1 : ¬ b.getStatus = "Available" := hst
  have h2 : ¬ b.getBorrowedBy ≠ u.getUserID := fun h => h hby
  unfold userReturnBook
  rw [hb]
  simp only [if_neg h1, if_neg h2]
  refine ⟨_, _, rfl, ?_, ?_, ?_, ?_, ?_⟩
  all_goals
    simp only [Book.getDueDate, Book.getTitle, Book.setStatus, Book.setBorrowedBy,
      Book.setBorrowDate, Book.setDueDate, User.addHistory, User.handleOverdueBook, User.setFine,
      User.getFine, Student.FINE_RATE]
    by_cases hd : diffInDays today b.dueDate > 0 <;> by_cases hr : u.role = Role.student <;>
      by_cases hf : u.role = Role.faculty <;> simp [hd, hr, hf]
    all_goals split <;> simp_all

/-- C2: returning a book that is not "Available" and is held by the user resets
the book to Available / "-None-" / 0 / 0 and appends its title once at the end
of the user's history, earlier entries (duplicates included) being kept. -/
theorem userReturnBook_resets_book (today : Int) (books : List Book) (u : User) (i : Nat)
    (b : Book) (hb : books[i]? = some b) (hst : b.status ≠ "Available")
    (hby : b.borrowedBy = u.userID) :
    ∃ u1 out,
      userReturnBook today books u i =
        some (books.set i { b with status := "Available", borrowedBy := "-None-",
                                   borrowDate := 0, dueDate := 0 },
              u1, out) ∧
      (books.set i { b with status := "Available", borrowedBy := "-None-",
                            borrowDate := 0, dueDate := 0 })[i]? =
        some { b with status := "Available", borrowedBy := "-None-",
                      borrowDate := 0, dueDate := 0 } ∧
      u1.borrowHistory = u.borrowHistory ++ [b.title] := by
  obtain ⟨u1, out, h, hh, -⟩ := userReturnBook_eq today books u i b hb hst hby
  have hlt : i < books.length := (List.getElem?_eq_some_iff.mp hb).1
  exact ⟨u1, out, h, by simp [List.getElem?_set, hlt], hh⟩

/-- Witness for C2: a Student who returned "T" before returns it again on time. -/
theorem userReturnBook_resets_book_witness :
    ([exLoan "T" "s1" 115][0]? = some (exLoan "T" "s1" 115) ∧
      (exLoan "T" "s1" 115).status ≠ "Available" ∧
      (exLoan "T" "s1" 115).borrowedBy =
        ({ exUser "s1" Role.student 0 with borrowHistory := ["T"] } : User).userID) ∧
    ∃ u1 out,
      userReturnBook 110 [exLoan "T" "s1" 115]
          { exUser "s1" Role.student 0 with borrowHistory := ["T"] } 0 =
        some ([exLoan "T" "s1" 115].set 0
                { exLoan "T" "s1" 115 with status := "Available", borrowedBy := "-None-",
                                           borrowDate := 0, dueDate := 0 },
              u1, out) ∧
      ([exLoan "T" "s1" 115].set 0
          { exLoan "T" "s1" 115 with status := "Available", borrowedBy := "-None-",
                                     borrowDate := 0, dueDate := 0 })[0]? =
        some { exLoan "T" "s1" 115 with status := "Available", borrowedBy := "-None-",
                                        borrowDate := 0, dueDate := 0 } ∧
      u1.borrowHistory =
        ({ exUser "s1" Role.student 0 with borrowHistory := ["T"] } : User).borrowHistory ++
          [(exLoan "T" "s1" 115).title] :=
  ⟨⟨rfl, by decide, rfl⟩,
    userReturnBook_resets_book 110 [exLoan "T" "s1" 115]
      { exUser "s1" Role.student 0 with borrowHistory := ["T"] } 0 (exLoan "T" "s1" 115)
      rfl (by decide) rfl⟩

/-! ## Rejected borrows -/

/-- C3: a Student with a positive fine, or with three or more books of the
catalog on loan to them, is refused by `userBorrowBook` whatever the book; the
catalog and the student record (fine and history included) are returned as they
were. -/
theorem userBorrowBook_student_rejected (today : Int) (books : List Book) (u : User) (i : Nat)
    (hr : u.role = Role.student)
    (h : u.fine > 0 ∨
      (books.filter
        (fun bk => decide (bk.borrowedBy = u.userID ∧ bk.status = "Borrowed"))).length ≥ 3) :
    userBorrowBook today books u i = some (books, u, [Msg.cannotBorrowLimitOrFines]) := by
  have hc : u.canBorrowMore (gatherUserBorrowed books u.getUserID) = false := by
    unfold User.canBorrowMore
    rw [hr]
    simp only [User.hasUnpaidFines, hr, User.getFine, User.getUserID, gatherUserBorrowed,
      gatherFrom_length, Student.MAX_BOOKS]
    rcases h with h | h
    · simp [h]
    · have h3 : 3 ≤ (books.filter
          (fun bk => decide (bk.borrowedBy = u.userID) && decide (bk.status = "Borrowed"))).length := by
        simpa using h
      simp [h3]
  unfold userBorrowBook
  rw [if_pos ⟨hr, hc⟩]

/-- Witness for C3: a Student owing 5 asks for an available book. -/
theorem userBorrowBook_student_rejected_witness :
    ((exUser "s1" Role.student 5).role = Role.student ∧
      ((exUser "s1" Role.student 5).fine > 0 ∨
        ([exBook "T"].filter
          (fun bk => decide (bk.borrowedBy = (exUser "s1" Role.student 5).userID ∧
            bk.status = "Borrowed"))).length ≥ 3)) ∧
    userBorrowBook 100 [exBook "T"] (exUser "s1" Role.student 5) 0 =
      some ([exBook "T"], exUser "s1" Role.student 5, [Msg.cannotBorrowLimitOrFines]) :=
  ⟨⟨rfl, Or.inl (by decide)⟩,
    userBorrowBook_student_rejected 100 [exBook "T"] (exUser "s1" Role.student 5) 0 rfl
      (Or.inl (by decide))⟩

/-- C4, evaluated: a Faculty user holding five books (so that
`Faculty::canBorrowMore` answers false) and with nothing overdue borrows a sixth
one; `userBorrowBook` never asks `canBorrowMore` on the Faculty path. -/
theorem userBorrowBook_faculty_sixth_book :
    (exUser "f1" Role.faculty 0).canBorrowMore
        (gatherUserBorrowed exFacultyShelf "f1") = false ∧
    (gatherUserBorrowed exFacultyShelf "f1").length = 5 ∧
    userBorrowBook 100 exFacultyShelf (exUser "f1" Role.faculty 0) 5 =
      some (exFacultyShelf.set 5
              { exBook "F" with status := "Borrowed", borrowedBy := "f1",
                                borrowDate := 100, dueDate := 130 },
            exUser "f1" Role.faculty 0, [Msg.successfullyBorrowed "F" 30]) ∧
    (gatherUserBorrowed
        (exFacultyShelf.set 5
          { exBook "F" with status := "Borrowed", borrowedBy := "f1",
                            borrowDate := 100, dueDate := 130 }) "f1").length = 6 := by
  decide

/-- A book of the catalog is held by `userID` exactly when `gatherUserBorrowed`
lists it. -/
theorem exists_mem_gatherUserBorrowed (books : List Book) (userID : String) (bk : Book) :
    (bk ∈ books ∧ bk.borrowedBy = userID ∧ bk.status = "Borrowed") ↔
      ∃ p ∈ gatherUserBorrowed books userID, p.2 = bk := by
  constructor
  · rintro ⟨hm, h1, h2⟩
    obtain ⟨n, hn⟩ := List.mem_iff_getElem?.mp hm
    exact ⟨(n, bk), (gatherUserBorrowed_mem books userID (n, bk)).mpr ⟨hn, h1, h2⟩, rfl⟩
  · rintro ⟨p, hp, rfl⟩
    obtain ⟨h0, h1, h2⟩ := (gatherUserBorrowed_mem books userID p).mp hp
    exact ⟨List.mem_iff_getElem?.mpr ⟨p.1, h0⟩, h1, h2⟩

/-- C5, as stated, fails: on day 20000 the Faculty user "f1" holds a book whose
due date is the smallest `int`, so that `today - dueDate` is far above 60; the
`int` subtraction of `diffInDays` overflows to a negative number, the check
`overdueDays > 60` fails, and the second book is lent. -/
theorem userBorrowBook_faculty_overdue_wraps :
    (exLoanDue "A" "f1" (-2147483648)).borrowedBy = (exUser "f1" Role.faculty 0).userID ∧
    (exLoanDue "A" "f1" (-2147483648)).status = "Borrowed" ∧
    20000 - (exLoanDue "A" "f1" (-2147483648)).dueDate > 60 ∧
    diffInDays 20000 (exLoanDue "A" "f1" (-2147483648)).dueDate = -2147463648 ∧
    userBorrowBook 20000 [exLoanDue "A" "f1" (-2147483648), exBook "B"]
        (exUser "f1" Role.faculty 0) 1 =
      some ([exLoanDue "A" "f1" (-2147483648),
             { exBook "B" with status := "Borrowed", borrowedBy := "f1",
                               borrowDate := 20000, dueDate := 20030 }],
            exUser "f1" Role.faculty 0, [Msg.successfullyBorrowed "B" 30]) := by
  decide

/-- C5, amended: for a Faculty user, a held book with `today - dueDate > 60`,
the difference being an `int` value, makes `userBorrowBook` refuse any book and
return the catalog as it was; when for every held book the difference is an
`int` value and `today - dueDate ≤ 60` (60 included) the call is not refused
for that reason. -/
theorem userBorrowBook_faculty_overdue (today : Int) (books : List Book) (u : User) (i : Nat)
    (hr : u.role = Role.faculty) :
    ((∃ bk ∈ books, bk.borrowedBy = u.userID ∧ bk.status = "Borrowed" ∧
          today - bk.dueDate > 60 ∧ isInt32 (today - bk.dueDate)) →
      userBorrowBook today books u i = some (books, u, [Msg.facultyOverdueExceeds60])) ∧
    ((∀ bk ∈ books, bk.borrowedBy = u.userID → bk.status = "Borrowed" →
          isInt32 (today - bk.dueDate) ∧ today - bk.dueDate ≤ 60) →
      ∀ b, books[i]? = some b →
        ∃ r, userBorrowBook today books u i = some r ∧
          Msg.facultyOverdueExceeds60 ∉ r.2.2) := by
  have hns : ¬ (u.role = Role.student ∧
      u.canBorrowMore (gatherUserBorrowed books u.getUserID) = false) := by
    rintro ⟨h, -⟩
    rw [hr] at h
    exact Role.noConfusion h
  constructor
  · rintro ⟨bk, hm, h1, h2, h3, h4⟩
    obtain ⟨p, hp, rfl⟩ := (exists_mem_gatherUserBorrowed books u.userID _).mp ⟨hm, h1, h2⟩
    have hd : diffInDays today p.2.dueDate > 60 := by
      unfold diffInDays
      rw [wrapInt32_eq _ h4]
      exact h3
    have hany : anyOverdue60 today (gatherUserBorrowed books u.getUserID) = true :=
      (anyOverdue60_eq_true _ _).mpr ⟨p, hp, hd⟩
    unfold userBorrowBook
    rw [if_neg hns, if_pos ⟨hr, hany⟩]
  · intro hall b hb
    have hany : ¬ (u.role = Role.faculty ∧
        anyOverdue60 today (gatherUserBorrowed books u.getUserID) = true) := by
      rintro ⟨-, hc⟩
      obtain ⟨p, hp, hd⟩ := (anyOverdue60_eq_true _ _).mp hc
      obtain ⟨hm, h1, h2⟩ := (exists_mem_gatherUserBorrowed books u.userID p.2).mpr ⟨p, hp, rfl⟩
      obtain ⟨h3, h4⟩ := hall p.2 hm h1 h2
      unfold diffInDays at hd
      rw [wrapInt32_eq _ h3] at hd
      omega
    unfold userBorrowBook
    rw [if_neg hns, if_neg hany, hb]
    by_cases hst : b.getStatus = "Borrowed"
    · simp only [if_pos hst]
      exact ⟨_, rfl, by simp⟩
    · simp only [if_neg hst]
      exact ⟨_, rfl, by simp⟩

/-- Witness for C5: on day 100 a Faculty user holds one book due on day 40
(exactly 60 days overdue) and another due on day 39 in a second catalog; the
first does not block, the second does. -/
theorem userBorrowBook_faculty_overdue_witness :
    (exUser "f1" Role.faculty 0).role = Role.faculty ∧
    (∃ r, userBorrowBook 100 [exLoan "A" "f1" 40, exBook "B"] (exUser "f1" Role.faculty 0) 1
        = some r ∧ Msg.facultyOverdueExceeds60 ∉ r.2.2) ∧
    userBorrowBook 100 [exLoan "A" "f1" 39, exBook "B"] (exUser "f1" Role.faculty 0) 1 =
      some ([exLoan "A" "f1" 39, exBook "B"], exUser "f1" Role.faculty 0,
        [Msg.facultyOverdueExceeds60]) :=
  ⟨rfl,
    (userBorrowBook_faculty_overdue 100 [exLoan "A" "f1" 40, exBook "B"]
      (exUser "f1" Role.faculty 0) 1 rfl).2 (by decide) (exBook "B") rfl,
    (userBorrowBook_faculty_overdue 100 [exLoan "A" "f1" 39, exBook "B"]
      (exUser "f1" Role.faculty 0) 1 rfl).1
      ⟨exLoan "A" "f1" 39, by decide, rfl, rfl, by decide, by decide⟩⟩

/-- C6: a borrow request for a book whose status is "Borrowed" is refused for
every user, the holder included: the catalog (so the status, holder and dates
of that book and every other record) and the user record are returned as they
were. -/
theorem userBorrowBook_borrowed_rejected (today : Int) (books : List Book) (u : User) (i : Nat)
    (b : Book) (hb : books[i]? = some b) (hst : b.status = "Borrowed") :
    ∃ m, userBorrowBook today books u i = some (books, u, [m]) ∧
      (m = Msg.cannotBorrowLimitOrFines ∨ m = Msg.facultyOverdueExceeds60 ∨
        m = Msg.alreadyBorrowed) := by
  unfold userBorrowBook
  by_cases h1 : u.role = Role.student ∧
      u.canBorrowMore (gatherUserBorrowed books u.getUserID) = false
  · rw [if_pos h1]
    exact ⟨_, rfl, Or.inl rfl⟩
  · rw [if_neg h1]
    by_cases h2 : u.role = Role.faculty ∧
        anyOverdue60 today (gatherUserBorrowed books u.getUserID) = true
    · rw [if_pos h2]
      exact ⟨_, rfl, Or.inr (Or.inl rfl)⟩
    · have h3 : b.getStatus = "Borrowed" := hst
      rw [if_neg h2, hb]
      simp only [if_pos h3]
      exact ⟨_, rfl, Or.inr (Or.inr rfl)⟩

/-- Witness for C6: a second user asks for a book already on loan to "s1". -/
theorem userBorrowBook_borrowed_rejected_witness :
    ([exLoan "T" "s1" 115][0]? = some (exLoan "T" "s1" 115) ∧
      (exLoan "T" "s1" 115).status = "Borrowed") ∧
    ∃ m, userBorrowBook 100 [exLoan "T" "s1" 115] (exUser "s2" Role.student 0) 0 =
        some ([exLoan "T" "s1" 115], exUser "s2" Role.student 0, [m]) ∧
      (m = Msg.cannotBorrowLimitOrFines ∨ m = Msg.facultyOverdueExceeds60 ∨
        m = Msg.alreadyBorrowed) :=
  ⟨⟨rfl, rfl⟩,
    userBorrowBook_borrowed_rejected 100 [exLoan "T" "s1" 115] (exUser "s2" Role.student 0) 0
      (exLoan "T" "s1" 115) rfl rfl⟩

/-! ## Rejected returns -/

/-- C7: a return request for a book that is "Available", or whose `borrowedBy`
is not the user's `userID`, is refused: the catalog and the user record (fine
and history included) are returned as they were. -/
theorem userReturnBook_rejected (today : Int) (books : List Book) (u : User) (i : Nat)
    (b : Book) (hb : books[i]? = some b)
    (h : b.status = "Available" ∨ b.borrowedBy ≠ u.userID) :
    ∃ m, userReturnBook today books u i = some (books, u, [m]) ∧
      (m = Msg.bookNotBorrowed ∨ m = Msg.notBorrowedByYou) := by
  unfold userReturnBook
  rw [hb]
  by_cases h1 : b.getStatus = "Available"
  · simp only [if_pos h1]
    exact ⟨_, rfl, Or.inl rfl⟩
  · have h2 : b.getBorrowedBy ≠ u.getUserID := by
      rcases h with h | h
      · exact absurd h h1
      · exact h
    simp only [if_neg h1, if_pos h2]
    exact ⟨_, rfl, Or.inr rfl⟩

/-- Witness for C7: "s2" tries to return a book that is on loan to "s1". -/
theorem userReturnBook_rejected_witness :
    ([exLoan "T" "s1" 115][0]? = some (exLoan "T" "s1" 115) ∧
      ((exLoan "T" "s1" 115).status = "Available" ∨
        (exLoan "T" "s1" 115).borrowedBy ≠ (exUser "s2" Role.student 0).userID)) ∧
    ∃ m, userReturnBook 200 [exLoan "T" "s1" 115] (exUser "s2" Role.student 0) 0 =
        some ([exLoan "T" "s1" 115], exUser "s2" Role.student 0, [m]) ∧
      (m = Msg.bookNotBorrowed ∨ m = Msg.notBorrowedByYou) :=
  ⟨⟨rfl, Or.inr (by decide)⟩,
    userReturnBook_rejected 200 [exLoan "T" "s1" 115] (exUser "s2" Role.student 0) 0
      (exLoan "T" "s1" 115) rfl (Or.inr (by decide))⟩

/-! ## Fines -/

/-- C8, as stated, fails: on day 20000 a Student returns (a) a book whose due
date is the smallest `int`: `today - dueDate` is positive, but the `int`
subtraction overflows to a negative number, the return counts as on time and
the fine stays 0; (b) a book due on day -300000000: the `int` product
`overdueDays * 10` overflows and the fine becomes -1294767296. -/
theorem userReturnBook_student_fine_wraps :
    20000 - (exLoanDue "T" "s1" (-2147483648)).dueDate > 0 ∧
    userReturnBook 20000 [exLoanDue "T" "s1" (-2147483648)] (exUser "s1" Role.student 0) 0 =
      some ([exBook "T"], { exUser "s1" Role.student 0 with borrowHistory := ["T"] },
        [Msg.returnedOnTime, Msg.bookReturned]) ∧
    20000 - (exLoanDue "T" "s1" (-300000000)).dueDate = 300020000 ∧
    userReturnBook 20000 [exLoanDue "T" "s1" (-300000000)] (exUser "s1" Role.student 0) 0 =
      some ([exBook "T"],
        { exUser "s1" Role.student (-1294767296) with borrowHistory := ["T"] },
        [Msg.studentFined (-1294767296), Msg.bookReturned]) := by
  decide

/-- C8, amended: when a Student returns a book they hold and `today - dueDate`
is an `int` value, the fine balance grows by exactly `(today - dueDate) * 10` if
`today - dueDate > 0` and that product and the new balance are `int` values,
and is unchanged if `today - dueDate ≤ 0`; a book borrowed for 15 days and
returned 20 days after the borrow date costs 50. -/
theorem userReturnBook_student_fine (today : Int) (books : List Book) (u : User) (i : Nat)
    (b : Book) (hr : u.role = Role.student) (hb : books[i]? = some b)
    (hst : b.status = "Borrowed") (hby : b.borrowedBy = u.userID)
    (hdiff : isInt32 (today - b.dueDate)) :
    ∃ books1 u1 out, userReturnBook today books u i = some (books1, u1, out) ∧
      (today - b.dueDate > 0 → isInt32 ((today - b.dueDate) * 10) →
        isInt32 (u.fine + (today - b.dueDate) * 10) →
        u1.fine = u.fine + (today - b.dueDate) * 10) ∧
      (today - b.dueDate ≤ 0 → u1.fine = u.fine) ∧
      (b.dueDate = b.borrowDate + 15 → today = b.borrowDate + 20 →
        isInt32 (u.fine + 50) → u1.fine = u.fine + 50) := by
  have hna : b.status ≠ "Available" := by
    rw [hst]
    decide
  have hd : diffInDays today b.dueDate = today - b.dueDate := by
    unfold diffInDays
    exact wrapInt32_eq _ hdiff
  obtain ⟨u1, out, h, -, -, -, -, hf⟩ := userReturnBook_eq today books u i b hb hna hby
  rw [hd] at hf
  refine ⟨_, u1, out, h, ?_, ?_, ?_⟩
  · intro hpos h1 h2
    rw [hf, if_pos ⟨hpos, hr⟩, wrapInt32_eq _ h1, wrapInt32_eq _ h2]
  · intro hle
    have : ¬ (today - b.dueDate > 0 ∧ u.role = Role.student) := fun hc => by omega
    rw [hf, if_neg this]
  · intro h1 h2 h3
    have hpos : today - b.dueDate > 0 := by omega
    have h5 : today - b.dueDate = 5 := by omega
    rw [hf, if_pos ⟨hpos, hr⟩, h5]
    have h50 : wrapInt32 (5 * 10) = 50 := by decide
    rw [h50, wrapInt32_eq _ h3]

/-- Witness for C8: a book borrowed on day 100 for 15 days, returned on day 120. -/
theorem userReturnBook_student_fine_witness :
    ((exUser "s1" Role.student 0).role = Role.student ∧
      [exLoan "T" "s1" 115][0]? = some (exLoan "T" "s1" 115) ∧
      (exLoan "T" "s1" 115).status = "Borrowed" ∧
      (exLoan "T" "s1" 115).borrowedBy = (exUser "s1" Role.student 0).userID ∧
      isInt32 (120 - (exLoan "T" "s1" 115).dueDate)) ∧
    ∃ books1 u1 out,
      userReturnBook 120 [exLoan "T" "s1" 115] (exUser "s1" Role.student 0) 0 =
        some (books1, u1, out) ∧
      (120 - (exLoan "T" "s1" 115).dueDate > 0 →
        isInt32 ((120 - (exLoan "T" "s1" 115).dueDate) * 10) →
        isInt32 ((exUser "s1" Role.student 0).fine + (120 - (exLoan "T" "s1" 115).dueDate) * 10) →
        u1.fine = (exUser "s1" Role.student 0).fine + (120 - (exLoan "T" "s1" 115).dueDate) * 10) ∧
      (120 - (exLoan "T" "s1" 115).dueDate ≤ 0 → u1.fine = (exUser "s1" Role.student 0).fine) ∧
      ((exLoan "T" "s1" 115).dueDate = (exLoan "T" "s1" 115).borrowDate + 15 →
        120 = (exLoan "T" "s1" 115).borrowDate + 20 →
        isInt32 ((exUser "s1" Role.student 0).fine + 50) →
        u1.fine = (exUser "s1" Role.student 0).fine + 50) :=
  ⟨⟨rfl, rfl, rfl, rfl, by decide⟩,
    userReturnBook_student_fine 120 [exLoan "T" "s1" 115] (exUser "s1" Role.student 0) 0
      (exLoan "T" "s1" 115) rfl rfl rfl rfl (by decide)⟩

/-! ## Round trip -/

/-- C9: an Available book with holder "-None-" and both dates 0, borrowed on
day `t` by a user whom the role check lets through and returned by the same
user on day `t + loan period`, is again the original record (the whole
catalog is the original one); the history gains that title once, at the end,
and the fine is unchanged. -/
theorem borrow_return_round_trip (t : Int) (books : List Book) (u : User) (i : Nat) (b : Book)
    (hb : books[i]? = some b)
    (hav : b.status = "Available") (hnone : b.borrowedBy = "-None-")
    (hbd : b.borrowDate = 0) (hdd : b.dueDate = 0)
    (hS : u.role = Role.student →
      u.canBorrowMore (gatherUserBorrowed books u.userID) = true)
    (hF : u.role = Role.faculty →
      ∀ p ∈ gatherUserBorrowed books u.userID, ¬ diffInDays t p.2.dueDate > 60) :
    ∃ books1 out1 u2 out2,
      userBorrowBook t books u i = some (books1, u, out1) ∧
      userReturnBook (t + u.getBorrowDays) books1 u i = some (books, u2, out2) ∧
      books[i]? = some b ∧
      u2.borrowHistory = u.borrowHistory ++ [b.title] ∧
      u2.fine = u.fine := by
  have hlt : i < books.length := (List.getElem?_eq_some_iff.mp hb).1
  have hst : b.status ≠ "Borrowed" := by
    rw [hav]
    decide
  have h1 := userBorrowBook_accept t books u i b hb hS hF hst
  have hne : ("Borrowed" : String) ≠ "Available" := by decide
  have hb1 : ∀ b1 : Book, (books.set i b1)[i]? = some b1 := by
    intro b1
    simp [List.getElem?_set, hlt]
  obtain ⟨u2, out2, h2, hh, -, -, -, hf⟩ :=
    userReturnBook_eq (t + u.getBorrowDays) _ u i
      { b with status := "Borrowed", borrowedBy := u.userID, borrowDate := t,
               dueDate := t + u.getBorrowDays }
      (hb1 _) hne rfl
  refine ⟨_, _, u2, out2, h1, ?_, hb, hh, ?_⟩
  · rw [h2, List.set_set]
    have hrec : b.status = "Available" → b.borrowedBy = "-None-" → b.borrowDate = 0 →
        b.dueDate = 0 → ({ b with status := "Available", borrowedBy := "-None-", borrowDate := 0,
                                  dueDate := 0 } : Book) = b := by
      cases b
      intro e1 e2 e3 e4
      simp only at e1 e2 e3 e4
      subst e1 e2 e3 e4
      rfl
    simp only [hrec hav hnone hbd hdd, set_same books i b hb]
  · rw [hf]
    simp only [diffInDays_self]
    have h0 : ¬ ((0 : Int) > 0 ∧ u.role = Role.student) := fun h => absurd h.1 (by decide)
    rw [if_neg h0]

/-- Witness for C9: a Student borrows an available book on day 100 and returns
it on day 115. -/
theorem borrow_return_round_trip_witness :
    ([exBook "T"][0]? = some (exBook "T") ∧ (exBook "T").status = "Available" ∧
      (exBook "T").borrowedBy = "-None-" ∧ (exBook "T").borrowDate = 0 ∧
      (exBook "T").dueDate = 0 ∧
      (exUser "s1" Role.student 0).canBorrowMore
        (gatherUserBorrowed [exBook "T"] (exUser "s1" Role.student 0).userID) = true) ∧
    ∃ books1 out1 u2 out2,
      userBorrowBook 100 [exBook "T"] (exUser "s1" Role.student 0) 0 =
        some (books1, exUser "s1" Role.student 0, out1) ∧
      userReturnBook (100 + (exUser "s1" Role.student 0).getBorrowDays) books1
          (exUser "s1" Role.student 0) 0 = some ([exBook "T"], u2, out2) ∧
      [exBook "T"][0]? = some (exBook "T") ∧
      u2.borrowHistory = (exUser "s1" Role.student 0).borrowHistory ++ [(exBook "T").title] ∧
      u2.fine = (exUser "s1" Role.student 0).fine :=
  ⟨⟨rfl, rfl, rfl, rfl, rfl, by decide⟩,
    borrow_return_round_trip 100 [exBook "T"] (exUser "s1" Role.student 0) 0 (exBook "T")
      rfl rfl rfl rfl rfl (fun _ => by decide) (fun h => absurd h (by decide))⟩

/-! ## The Faculty overdue scenario -/

/-- Once the only book a user holds has been reset by a return, the user holds
nothing. -/
theorem gatherUserBorrowed_after_return (books : List Book) (userID : String) (j : Nat)
    (b1 : Book) (hb1 : b1.status = "Available")
    (honly : ∀ m bm, books[m]? = some bm → bm.borrowedBy = userID →
      bm.status = "Borrowed" → m = j) :
    gatherUserBorrowed (books.set j b1) userID = [] := by
  apply List.eq_nil_iff_forall_not_mem.mpr
  intro p hp
  obtain ⟨h0, h1, h2⟩ := (gatherUserBorrowed_mem _ _ p).mp hp
  by_cases hj : j = p.1
  · rw [← hj, List.getElem?_set] at h0
    simp only [if_true] at h0
    split at h0
    · have : b1 = p.2 := Option.some.inj h0
      rw [← this, hb1] at h2
      exact absurd h2 (by decide)
    · exact Option.noConfusion h0
  · rw [List.getElem?_set_ne hj] at h0
    exact hj (honly p.1 p.2 h0 h1 h2).symm

/-- C10: a Faculty user whose only held book has `today - dueDate = 61` is
refused any Available book; once that book has been returned on the same day,
the request for the Available book succeeds and the Faculty user is its holder. -/
theorem faculty_return_then_borrow (today : Int) (books : List Book) (u : User) (j k : Nat)
    (bj bk : Book) (hr : u.role = Role.faculty)
    (hj : books[j]? = some bj)
    (hheld : bj.borrowedBy = u.userID ∧ bj.status = "Borrowed")
    (honly : ∀ m bm, books[m]? = some bm → bm.borrowedBy = u.userID →
      bm.status = "Borrowed" → m = j)
    (hdue : today - bj.dueDate = 61)
    (hk : books[k]? = some bk) (hav : bk.status = "Available") :
    userBorrowBook today books u k = some (books, u, [Msg.facultyOverdueExceeds60]) ∧
    ∃ books1 u1 out1,
      userReturnBook today books u j = some (books1, u1, out1) ∧
      ∃ books2 b2,
        userBorrowBook today books1 u1 k =
          some (books2, u1, [Msg.successfullyBorrowed bk.title 30]) ∧
        books2[k]? = some b2 ∧ b2.status = "Borrowed" ∧ b2.borrowedBy = u.userID ∧
        b2.title = bk.title := by
  have hne : ("Borrowed" : String) ≠ "Available" := by decide
  have hjk : j ≠ k := by
    intro h
    rw [h, hk] at hj
    have : bk = bj := Option.some.inj hj
    rw [this, hheld.2] at hav
    exact hne hav
  have hklt : k < books.length := (List.getElem?_eq_some_iff.mp hk).1
  have hns : ∀ bs : List Book, ∀ v : User, v.role = Role.faculty →
      ¬ (v.role = Role.student ∧
        v.canBorrowMore (gatherUserBorrowed bs v.getUserID) = false) := by
    rintro bs v hv ⟨h, -⟩
    rw [hv] at h
    exact Role.noConfusion h
  constructor
  · have hmem : (j, bj) ∈ gatherUserBorrowed books u.getUserID :=
      (gatherUserBorrowed_mem books u.userID (j, bj)).mpr ⟨hj, hheld.1, hheld.2⟩
    have hany : anyOverdue60 today (gatherUserBorrowed books u.getUserID) = true :=
      (anyOverdue60_eq_true _ _).mpr
        ⟨(j, bj), hmem, by show wrapInt32 (today - bj.dueDate) > 60; rw [hdue]; decide⟩
    unfold userBorrowBook
    rw [if_neg (hns books u hr), if_pos ⟨hr, hany⟩]
  · have hna : bj.status ≠ "Available" := by
      rw [hheld.2]
      exact hne
    obtain ⟨u1, out1, h1, -, -, hid, hrole, -⟩ :=
      userReturnBook_eq today books u j bj hj hna hheld.1
    refine ⟨_, u1, out1, h1, ?_⟩
    have hg := gatherUserBorrowed_after_return books u.userID j
      { bj with status := "Available", borrowedBy := "-None-", borrowDate := 0, dueDate := 0 }
      rfl honly
    have hk1 : (books.set j { bj with status := "Available", borrowedBy := "-None-",
                                      borrowDate := 0, dueDate := 0 })[k]? = some bk := by
      rw [List.getElem?_set_ne hjk, hk]
    have hst : bk.status ≠ "Borrowed" := by
      rw [hav]
      exact fun h => hne h.symm
    have hacc := userBorrowBook_accept today _ u1 k bk hk1
      (fun h => by rw [hrole, hr] at h; exact Role.noConfusion h)
      (fun _ p hp => by rw [hid, hg] at hp; exact absurd hp (List.not_mem_nil _))
      hst
    have hdays : u1.getBorrowDays = 30 := by
      simp [User.getBorrowDays, hrole, hr, Faculty.BORROW_DAYS]
    rw [hdays] at hacc
    refine ⟨_, { bk with status := "Borrowed", borrowedBy := u1.userID, borrowDate := today,
                         dueDate := today + 30 }, hacc, ?_, rfl, hid, rfl⟩
    simp [List.getElem?_set, hklt]

/-- Witness for C10: on day 101 the Faculty user "f1" holds "A", due on day 40,
and asks for "B". -/
theorem faculty_return_then_borrow_witness :
    userBorrowBook 101 [exLoan "A" "f1" 40, exBook "B"] (exUser "f1" Role.faculty 0) 1 =
      some ([exLoan "A" "f1" 40, exBook "B"], exUser "f1" Role.faculty 0,
        [Msg.facultyOverdueExceeds60]) ∧
    ∃ books1 u1 out1,
      userReturnBook 101 [exLoan "A" "f1" 40, exBook "B"] (exUser "f1" Role.faculty 0) 0 =
        some (books1, u1, out1) ∧
      ∃ books2 b2,
        userBorrowBook 101 books1 u1 1 =
          some (books2, u1, [Msg.successfullyBorrowed (exBook "B").title 30]) ∧
        books2[1]? = some b2 ∧ b2.status = "Borrowed" ∧
        b2.borrowedBy = (exUser "f1" Role.faculty 0).userID ∧ b2.title = (exBook "B").title :=
  faculty_return_then_borrow 101 [exLoan "A" "f1" 40, exBook "B"] (exUser "f1" Role.faculty 0)
    0 1 (exLoan "A" "f1" 40) (exBook "B") rfl rfl ⟨rfl, rfl⟩
    (by
      intro m bm h0 h1 h2
      match m, h0 with
      | 0, _ => rfl
      | 1, h0 =>
        have : exBook "B" = bm := Option.some.inj h0
        rw [← this] at h2
        exact absurd h2 (by decide)
      | n + 2, h0 => exact Option.noConfusion h0)
    (by decide) rfl rfl

/-! ## What the two operations can return -/

/-- A call of `userBorrowBook` that returns either left everything as it was or
wrote the borrowed record at the position of the book; the user record is never
written. -/
theorem userBorrowBook_some (today : Int) (books : List Book) (u : User) (i : Nat)
    (r : List Book × User × List Msg) (h : userBorrowBook today books u i = some r) :
    r.2.1 = u ∧
    (r.1 = books ∨
      ∃ b, books[i]? = some b ∧ b.status ≠ "Borrowed" ∧
        r.1 = books.set i { b with status := "Borrowed", borrowedBy := u.userID,
                                   borrowDate := today, dueDate := today + u.getBorrowDays }) := by
  unfold userBorrowBook at h
  split at h
  · cases h
    exact ⟨rfl, Or.inl rfl⟩
  · split at h
    · cases h
      exact ⟨rfl, Or.inl rfl⟩
    · split at h
      · exact Option.noConfusion h
      · rename_i b hb
        split at h
        · cases h
          exact ⟨rfl, Or.inl rfl⟩
        · rename_i hst
          cases h
          exact ⟨rfl, Or.inr ⟨b, hb, hst, rfl⟩⟩

/-- With a valid book pointer `userBorrowBook` returns. -/
theorem userBorrowBook_returns (today : Int) (books : List Book) (u : User) (i : Nat)
    (b : Book) (hb : books[i]? = some b) :
    ∃ r, userBorrowBook today books u i = some r := by
  unfold userBorrowBook
  rw [hb]
  split
  · exact ⟨_, rfl⟩
  · split
    · exact ⟨_, rfl⟩
    · dsimp only
      split <;> exact ⟨_, rfl⟩

/-- What `userReturnBook` returns when the book is not "Available" and is held
by the user: the reset record in the catalog, and the user with the fine of the
Student overdue rule and the title added to the history. -/
theorem userReturnBook_accept (today : Int) (books : List Book) (u : User) (i : Nat) (b : Book)
    (hb : books[i]? = some b) (hst : b.status ≠ "Available") (hby : b.borrowedBy = u.userID) :
    ∃ out,
      userReturnBook today books u i =
        some (books.set i { b with status := "Available", borrowedBy := "-None-",
                                   borrowDate := 0, dueDate := 0 },
              (if diffInDays today b.dueDate > 0 ∧ u.role = Role.student then
                ({ u with fine :=
                    wrapInt32 (u.fine + wrapInt32 (diffInDays today b.dueDate * 10)) } : User)
               else u).addHistory b.title,
              out) := by
  have h1 : ¬ b.getStatus = "Available" := hst
  have h2 : ¬ b.getBorrowedBy ≠ u.getUserID := fun h => h hby
  unfold userReturnBook
  rw [hb]
  simp only [if_neg h1, if_neg h2]
  simp only [Book.getDueDate, Book.getTitle, Book.setStatus, Book.setBorrowedBy,
    Book.setBorrowDate, Book.setDueDate, User.handleOverdueBook, User.setFine,
    User.getFine, Student.FINE_RATE]
  simp only [Option.some.injEq, Prod.mk.injEq, true_and, exists_and_left, exists_eq', and_true]
  by_cases hd : diffInDays today b.dueDate > 0
  · by_cases hr : u.role = Role.student
    · have hf : ¬ (u.role = Role.faculty ∧ diffInDays today b.dueDate > 60) := by
        rintro ⟨h, -⟩
        rw [hr] at h
        exact Role.noConfusion h
      rw [if_pos (⟨hd, hr⟩ : diffInDays today b.dueDate > 0 ∧ u.role = Role.student)]
      simp only [if_pos hd, if_pos hr, if_neg hf]
      split
      · simp only [if_pos hd]
      · rename_i h
        rw [hr] at h
        exact Role.noConfusion h
      · rename_i h
        rw [hr] at h
        exact Role.noConfusion h
    · have hc : ¬ (diffInDays today b.dueDate > 0 ∧ u.role = Role.student) := fun h => hr h.2
      rw [if_neg hc]
      simp only [if_pos hd, if_neg hr]
      split <;> rfl
  · have hc : ¬ (diffInDays today b.dueDate > 0 ∧ u.role = Role.student) := fun h => hd h.1
    simp only [if_neg hd, if_neg hc]

/-- A call of `userReturnBook` that returns either refused and left everything
as it was, or found the book not "Available" and held by the user. -/
theorem userReturnBook_some (today : Int) (books : List Book) (u : User) (i : Nat)
    (r : List Book × User × List Msg) (h : userReturnBook today books u i = some r) :
    ∃ b, books[i]? = some b ∧
      ((r.1 = books ∧ r.2.1 = u) ∨ (b.status ≠ "Available" ∧ b.borrowedBy = u.userID)) := by
  unfold userReturnBook at h
  split at h
  · exact Option.noConfusion h
  · rename_i b hb
    refine ⟨b, hb, ?_⟩
    split at h
    · cases h
      exact Or.inl ⟨rfl, rfl⟩
    · rename_i hst
      split at h
      · cases h
        exact Or.inl ⟨rfl, rfl⟩
      · rename_i hby
        exact Or.inr ⟨hst, not_not.mp hby⟩

/-- With a valid book pointer `userReturnBook` returns. -/
theorem userReturnBook_returns (today : Int) (books : List Book) (u : User) (i : Nat)
    (b : Book) (hb : books[i]? = some b) :
    ∃ r, userReturnBook today books u i = some r := by
  unfold userReturnBook
  rw [hb]
  dsimp only
  split
  · exact ⟨_, rfl⟩
  · split <;> exact ⟨_, rfl⟩

/-- The fine after a call of `userReturnBook` that returns. -/
theorem userReturnBook_fine (today : Int) (books : List Book) (u : User) (i : Nat)
    (r : List Book × User × List Msg) (h : userReturnBook today books u i = some r) :
    r.2.1.fine = u.fine ∨
      (u.role = Role.student ∧ ∃ b, books[i]? = some b ∧ diffInDays today b.dueDate > 0 ∧
        r.2.1.fine = wrapInt32 (u.fine + wrapInt32 (diffInDays today b.dueDate * 10))) := by
  obtain ⟨b, hb, hcase⟩ := userReturnBook_some today books u i r h
  rcases hcase with ⟨-, hu⟩ | ⟨hst, hby⟩
  · rw [hu]
    exact Or.inl rfl
  · obtain ⟨out, hacc⟩ := userReturnBook_accept today books u i b hb hst hby
    rw [hacc] at h
    cases h
    by_cases hc : diffInDays today b.dueDate > 0 ∧ u.role = Role.student
    · right
      refine ⟨hc.2, b, hb, hc.1, ?_⟩
      simp only [if_pos hc, User.addHistory]
    · left
      simp only [if_neg hc, User.addHistory]

/-- The fine after `payFines`. -/
theorem payFines_fine (u : User) (c : Char) :
    (u.payFines c).1.fine = u.fine ∨
      (u.role = Role.student ∧ (c = 'y' ∨ c = 'Y') ∧ (u.payFines c).1.fine = 0) := by
  unfold User.payFines
  split
  · rename_i hr
    unfold Student.payFines
    split
    · exact Or.inl rfl
    · split
      · rename_i hc
        exact Or.inr ⟨hr, hc, rfl⟩
      · exact Or.inl rfl
  · exact Or.inl rfl
  · exact Or.inl rfl

/-! ## Fine balance of a Student -/

/-- C11, as stated, fails: a Student whose loaded fine is 2147483640 returns a
book five days late; the `int` sum `fine + 50` overflows and the balance
becomes -2147483606, lower than before, without any `payFines`.  The same
happens in `handleOverdueBook(5)` alone. -/
theorem student_fine_lowered_by_overflow :
    userReturnBook 120 [exLoan "T" "s1" 115] (exUser "s1" Role.student 2147483640) 0 =
      some ([exBook "T"],
        { exUser "s1" Role.student (-2147483606) with borrowHistory := ["T"] },
        [Msg.studentFined 50, Msg.bookReturned]) ∧
    ((exUser "s1" Role.student 2147483640).handleOverdueBook 5).fine = -2147483606 ∧
    ((exUser "s1" Role.student 2147483640).handleOverdueBook 5).fine <
      (exUser "s1" Role.student 2147483640).fine := by
  decide

/-- C11, amended: for a Student, no call of `userBorrowBook` lowers the fine
balance; no call of `userReturnBook` or `handleOverdueBook` lowers it when the
`int` computations of the call do not overflow (`today - dueDate`, and for a
positive number of overdue days `daysOverdue * 10` and `fine + daysOverdue * 10`
are `int` values); the first two return whenever the book pointer is valid;
`payFines` lowers the balance only on the answer y or Y, and after that answer
the balance is exactly 0. -/
theorem student_fine_monotone (u : User) (hr : u.role = Role.student) :
    (∀ today books i r, userBorrowBook today books u i = some r → u.fine ≤ r.2.1.fine) ∧
    (∀ today books i b r, books[i]? = some b → isInt32 (today - b.dueDate) →
      (today - b.dueDate > 0 →
        isInt32 ((today - b.dueDate) * 10) ∧ isInt32 (u.fine + (today - b.dueDate) * 10)) →
      userReturnBook today books u i = some r → u.fine ≤ r.2.1.fine) ∧
    (∀ today books i b, books[i]? = some b →
      (∃ r, userBorrowBook today books u i = some r) ∧
      (∃ r, userReturnBook today books u i = some r)) ∧
    (∀ daysOverdue,
      (daysOverdue > 0 → isInt32 (daysOverdue * 10) ∧ isInt32 (u.fine + daysOverdue * 10)) →
      u.fine ≤ (u.handleOverdueBook daysOverdue).fine) ∧
    (∀ c, (u.payFines c).1.fine < u.fine → c = 'y' ∨ c = 'Y') ∧
    (∀ c, c = 'y' ∨ c = 'Y' → (u.payFines c).1.fine = 0) := by
  refine ⟨?_, ?_, ?_, ?_, ?_, ?_⟩
  · intro today books i r h
    rw [(userBorrowBook_some today books u i r h).1]
  · intro today books i b r hb hdiff hnov h
    rcases userReturnBook_fine today books u i r h with h1 | ⟨-, b1, hb1, hd, h1⟩
    · rw [h1]
    · have hbb : b1 = b := Option.some.inj (hb1.symm.trans hb)
      subst hbb
      have hdd : diffInDays today b1.dueDate = today - b1.dueDate := by
        unfold diffInDays
        exact wrapInt32_eq _ hdiff
      rw [hdd] at hd h1
      obtain ⟨h2, h3⟩ := hnov hd
      rw [h1, wrapInt32_eq _ h2, wrapInt32_eq _ h3]
      omega
  · intro today books i b hb
    exact ⟨userBorrowBook_returns today books u i b hb, userReturnBook_returns today books u i b hb⟩
  · intro d hnov
    unfold User.handleOverdueBook
    rw [hr]
    by_cases hd : d > 0
    · obtain ⟨h2, h3⟩ := hnov hd
      simp only [if_pos hd, User.setFine, User.getFine, Student.FINE_RATE]
      rw [wrapInt32_eq _ h2, wrapInt32_eq _ h3]
      omega
    · simp only [if_neg hd]
      exact le_refl _
  · intro c hlt
    rcases payFines_fine u c with h1 | ⟨-, hc, -⟩
    · rw [h1] at hlt
      exact absurd hlt (lt_irrefl _)
    · exact hc
  · intro c hc
    unfold User.payFines
    rw [hr]
    unfold Student.payFines
    by_cases h0 : u.getFine = 0
    · simp only [if_pos h0]
      exact h0
    · simp only [if_neg h0, if_pos hc]
      rfl

/-- Witness for C11: a Student owing 20 returns a book five days late, then
pays. -/
theorem student_fine_monotone_witness :
    (exUser "s1" Role.student 20).role = Role.student ∧
    userReturnBook 120 [exLoan "T" "s1" 115] (exUser "s1" Role.student 20) 0 =
      some ([exBook "T"],
        { exUser "s1" Role.student 70 with borrowHistory := ["T"] },
        [Msg.studentFined 50, Msg.bookReturned]) ∧
    (exUser "s1" Role.student 20).fine ≤
      ({ exUser "s1" Role.student 70 with borrowHistory := ["T"] } : User).fine ∧
    ((exUser "s1" Role.student 20).payFines 'y').1.fine = 0 :=
  ⟨rfl, by decide,
    (student_fine_monotone (exUser "s1" Role.student 20) rfl).2.1 120 [exLoan "T" "s1" 115] 0
      (exLoan "T" "s1" 115)
      ([exBook "T"], { exUser "s1" Role.student 70 with borrowHistory := ["T"] },
        [Msg.studentFined 50, Msg.bookReturned])
      rfl (by decide) (fun _ => by decide) (by decide),
    (student_fine_monotone (exUser "s1" Role.student 20) rfl).2.2.2.2.2 'y' (Or.inl rfl)⟩

/-! ## The Book Record invariant -/

/-- C12, as stated, fails: an available book that satisfies the invariant is
borrowed (a) by a user whose `userID` is the sentinel "-None-", (b) on day 0 by
a Librarian, whose loan period is 0; the borrowed record breaks the invariant
in both cases. -/
theorem specInvariant_broken_by_borrow :
    (exBook "T").specInvariant ∧
    userBorrowBook 100 [exBook "T"] (exUser "-None-" Role.student 0) 0 =
      some ([exLoan "T" "-None-" 115], exUser "-None-" Role.student 0,
        [Msg.successfullyBorrowed "T" 15]) ∧
    ¬ (exLoan "T" "-None-" 115).specInvariant ∧
    userBorrowBook 0 [exBook "T"] (exUser "l1" Role.librarian 0) 0 =
      some ([{ exBook "T" with status := "Borrowed", borrowedBy := "l1" }],
        exUser "l1" Role.librarian 0, [Msg.successfullyBorrowed "T" 0]) ∧
    ¬ ({ exBook "T" with status := "Borrowed", borrowedBy := "l1" } : Book).specInvariant := by
  decide

/-- The record `userBorrowBook` writes satisfies the invariant when the holder
is not the sentinel and the two dates are not both 0. -/
theorem specInvariant_borrowed (b : Book) (uid : String) (today days : Int)
    (hid : uid ≠ "-None-") (hday : today ≠ 0 ∨ days ≠ 0) :
    ({ b with status := "Borrowed", borrowedBy := uid, borrowDate := today,
              dueDate := today + days } : Book).specInvariant := by
  have hne : ("Borrowed" : String) ≠ "Available" := by decide
  unfold Book.specInvariant
  refine ⟨⟨fun h => absurd h hne, fun h => absurd h hid⟩, ⟨fun h => absurd h hid, ?_⟩⟩
  rintro ⟨h1, h2⟩
  simp only at h1 h2
  rcases hday with h | h
  · exact absurd h1 h
  · rw [h1] at h2
    exact absurd (by simpa using h2) h

/-- C12, amended: the records built by the two `Book` constructors and by
`addBook` satisfy the invariant; `userReturnBook` keeps it on every record of
the catalog for every user, book and day; `userBorrowBook` keeps it for every
user whose `userID` is not "-None-" unless the day is 0 and the user is a
Librarian. -/
theorem specInvariant_preserved (today : Int) (books : List Book) (u : User) (i : Nat)
    (hinv : ∀ bk ∈ books, bk.specInvariant) :
    Book.mk0.specInvariant ∧
    (∀ t a n p y, (Book.mk5 t a n p y).specInvariant) ∧
    (∀ t a n p y, ∀ bk ∈ (addBook books t a n p y).1, bk.specInvariant) ∧
    (∀ r, userReturnBook today books u i = some r → ∀ bk ∈ r.1, bk.specInvariant) ∧
    (u.userID ≠ "-None-" → (today ≠ 0 ∨ u.role ≠ Role.librarian) →
      ∀ r, userBorrowBook today books u i = some r → ∀ bk ∈ r.1, bk.specInvariant) := by
  have hmk5 : ∀ t a n p y, (Book.mk5 t a n p y).specInvariant := by
    intro t a n p y
    unfold Book.specInvariant Book.mk5
    simp
  refine ⟨by decide, hmk5, ?_, ?_, ?_⟩
  · intro t a n p y bk hbk
    unfold addBook at hbk
    rcases List.mem_append.mp hbk with h | h
    · exact hinv bk h
    · rw [List.mem_singleton.mp h]
      exact hmk5 t a n p y
  · intro r h bk hbk
    obtain ⟨b, hb, hcase⟩ := userReturnBook_some today books u i r h
    rcases hcase with ⟨hbooks, -⟩ | ⟨hst, hby⟩
    · rw [hbooks] at hbk
      exact hinv bk hbk
    · obtain ⟨out, hacc⟩ := userReturnBook_accept today books u i b hb hst hby
      rw [hacc] at h
      cases h
      rcases List.mem_or_eq_of_mem_set hbk with h1 | h1
      · exact hinv bk h1
      · rw [h1]
        unfold Book.specInvariant
        simp
  · intro hid hday r h bk hbk
    obtain ⟨-, hcase⟩ := userBorrowBook_some today books u i r h
    rcases hcase with hbooks | ⟨b, hb, hst, hset⟩
    · rw [hbooks] at hbk
      exact hinv bk hbk
    · rw [hset] at hbk
      rcases List.mem_or_eq_of_mem_set hbk with h1 | h1
      · exact hinv bk h1
      · rw [h1]
        apply specInvariant_borrowed b u.userID today u.getBorrowDays hid
        rcases hday with h2 | h2
        · exact Or.inl h2
        · right
          unfold User.getBorrowDays
          cases hrole : u.role with
          | student => simp [Student.BORROW_DAYS]
          | faculty => simp [Faculty.BORROW_DAYS]
          | librarian => exact absurd hrole h2

/-- Witness for C12: a one-book catalog, on day 100, with the Student "s1". -/
theorem specInvariant_preserved_witness :
    (∀ bk ∈ [exBook "T"], bk.specInvariant) ∧
    ∀ bk ∈ [exLoan "T" "s1" 115], bk.specInvariant :=
  ⟨by decide,
    (specInvariant_preserved 100 [exBook "T"] (exUser "s1" Role.student 0) 0 (by decide)).2.2.2.2
      (by decide) (Or.inl (by decide))
      ([exLoan "T" "s1" 115], exUser "s1" Role.student 0, [Msg.successfullyBorrowed "T" 15])
      (by decide)⟩

/-! ## The two borrowing limits -/

/-- C13: `Student::canBorrowMore` answers false when the fine is positive or
the holdings number 3 or more, and true otherwise. -/
theorem student_canBorrowMore (u : User) (myBooks : List BookPtr)
    (hr : u.role = Role.student) :
    (u.fine > 0 ∨ myBooks.length ≥ 3 → u.canBorrowMore myBooks = false) ∧
    (¬ (u.fine > 0 ∨ myBooks.length ≥ 3) → u.canBorrowMore myBooks = true) := by
  unfold User.canBorrowMore
  rw [hr]
  simp only [User.hasUnpaidFines, hr, User.getFine, Student.MAX_BOOKS]
  constructor
  · rintro (h | h)
    · simp [h]
    · have : (3 : Int) ≤ (myBooks.length : Int) := by exact_mod_cast h
      simp [this]
  · intro h
    have h1 : ¬ u.fine > 0 := fun hc => h (Or.inl hc)
    have h2 : ¬ (myBooks.length : Int) ≥ 3 := fun hc => h (Or.inr (by exact_mod_cast hc))
    simp [h1, h2]

/-- Witness for C13: the boundary, two holdings and no fine against three
holdings. -/
theorem student_canBorrowMore_witness :
    (exUser "s1" Role.student 0).role = Role.student ∧
    (exUser "s1" Role.student 0).canBorrowMore
      [(0, exLoan "A" "s1" 115), (1, exLoan "B" "s1" 115)] = true ∧
    (exUser "s1" Role.student 0).canBorrowMore
      [(0, exLoan "A" "s1" 115), (1, exLoan "B" "s1" 115), (2, exLoan "C" "s1" 115)] = false :=
  ⟨rfl,
    (student_canBorrowMore (exUser "s1" Role.student 0)
      [(0, exLoan "A" "s1" 115), (1, exLoan "B" "s1" 115)] rfl).2 (by decide),
    (student_canBorrowMore (exUser "s1" Role.student 0)
      [(0, exLoan "A" "s1" 115), (1, exLoan "B" "s1" 115), (2, exLoan "C" "s1" 115)] rfl).1
      (Or.inr (by decide))⟩

/-- C14: `Faculty::canBorrowMore` answers false exactly when the holdings number
5 or more, whatever the value of the fine field. -/
theorem faculty_canBorrowMore (u : User) (myBooks : List BookPtr)
    (hr : u.role = Role.faculty) :
    (u.canBorrowMore myBooks = false ↔ myBooks.length ≥ 5) ∧
    (∀ f : Int, ({ u with fine := f } : User).canBorrowMore myBooks = u.canBorrowMore myBooks) := by
  constructor
  · unfold User.canBorrowMore
    rw [hr]
    simp only [Faculty.MAX_BOOKS]
    by_cases h : (myBooks.length : Int) ≥ 5
    · simp only [if_pos h, true_iff]
      exact_mod_cast h
    · simp only [if_neg h]
      constructor
      · intro hc
        exact Bool.noConfusion hc
      · intro hc
        exact absurd (by exact_mod_cast hc) h
  · intro f
    unfold User.canBorrowMore
    simp only [hr]

/-- Witness for C14: a Faculty user owing 99 with one holding. -/
theorem faculty_canBorrowMore_witness :
    (exUser "f1" Role.faculty 99).role = Role.faculty ∧
    ((exUser "f1" Role.faculty 99).canBorrowMore [(0, exLoan "A" "f1" 130)] = false ↔
      [(0, exLoan "A" "f1" 130)].length ≥ 5) ∧
    (∀ f : Int, ({ exUser "f1" Role.faculty 99 with fine := f } : User).canBorrowMore
        [(0, exLoan "A" "f1" 130)] =
      (exUser "f1" Role.faculty 99).canBorrowMore [(0, exLoan "A" "f1" 130)]) :=
  ⟨rfl, faculty_canBorrowMore (exUser "f1" Role.faculty 99) [(0, exLoan "A" "f1" 130)] rfl⟩

/-! ## Holdings -/

/-- The loop of `gatherUserBorrowed` keeps the positions and records of the
held books, in order. -/
theorem gatherFrom_eq_filter (userID : String) (books : List Book) (k : Nat) :
    gatherFrom userID k books =
      (books.enumFrom k).filter
        (fun p => decide (p.2.borrowedBy = userID ∧ p.2.status = "Borrowed")) := by
  induction books generalizing k with
  | nil => rfl
  | cons bk rest ih =>
    unfold gatherFrom
    rw [List.enumFrom_cons, List.filter_cons, ih (k + 1)]
    by_cases hc : bk.borrowedBy = userID ∧ bk.status = "Borrowed"
    · have hc2 : bk.getBorrowedBy = userID ∧ bk.getStatus = "Borrowed" := hc
      have hd : decide (bk.borrowedBy = userID ∧ bk.status = "Borrowed") = true :=
        decide_eq_true hc
      rw [if_pos hc2]
      simp only [hd, if_true]
    · have hc2 : ¬ (bk.getBorrowedBy = userID ∧ bk.getStatus = "Borrowed") := hc
      have hd : decide (bk.borrowedBy = userID ∧ bk.status = "Borrowed") = false :=
        decide_eq_false hc
      rw [if_neg hc2]
      simp only [hd]
      rfl

theorem gatherFrom_map_snd (userID : String) (books : List Book) (k : Nat) :
    (gatherFrom userID k books).map Prod.snd =
      books.filter (fun bk => decide (bk.borrowedBy = userID ∧ bk.status = "Borrowed")) := by
  induction books generalizing k with
  | nil => rfl
  | cons bk rest ih =>
    unfold gatherFrom
    rw [List.filter_cons]
    by_cases hc : bk.borrowedBy = userID ∧ bk.status = "Borrowed"
    · have hc2 : bk.getBorrowedBy = userID ∧ bk.getStatus = "Borrowed" := hc
      have hd : decide (bk.borrowedBy = userID ∧ bk.status = "Borrowed") = true :=
        decide_eq_true hc
      rw [if_pos hc2, List.map_cons, ih (k + 1)]
      simp only [hd, if_true]
    · have hc2 : ¬ (bk.getBorrowedBy = userID ∧ bk.getStatus = "Borrowed") := hc
      have hd : decide (bk.borrowedBy = userID ∧ bk.status = "Borrowed") = false :=
        decide_eq_false hc
      rw [if_neg hc2, ih (k + 1)]
      simp only [hd]
      rfl

/-- C15: `gatherUserBorrowed` returns the pointers to exactly the books of the
catalog with `borrowedBy = userID` and `status = "Borrowed"`: the positions of
the catalog that carry such a book, each once and in catalog order, so that the
records pointed at are the catalog filtered by that condition. -/
theorem gatherUserBorrowed_exact (books : List Book) (userID : String) :
    gatherUserBorrowed books userID =
      books.enum.filter
        (fun p => decide (p.2.borrowedBy = userID ∧ p.2.status = "Borrowed")) ∧
    (gatherUserBorrowed books userID).map Prod.snd =
      books.filter (fun bk => decide (bk.borrowedBy = userID ∧ bk.status = "Borrowed")) ∧
    (∀ n bk, (n, bk) ∈ gatherUserBorrowed books userID ↔
      books[n]? = some bk ∧ bk.borrowedBy = userID ∧ bk.status = "Borrowed") ∧
    ((gatherUserBorrowed books userID).map Prod.fst).Pairwise (fun m n => m < n) := by
  refine ⟨gatherFrom_eq_filter userID books 0, gatherFrom_map_snd userID books 0, ?_, ?_⟩
  · intro n bk
    exact gatherUserBorrowed_mem books userID (n, bk)
  · unfold gatherUserBorrowed
    rw [gatherFrom_eq_filter]
    have hsub : List.Sublist
        (((books.enumFrom 0).filter
          (fun p => decide (p.2.borrowedBy = userID ∧ p.2.status = "Borrowed"))).map Prod.fst)
        ((books.enumFrom 0).map Prod.fst) :=
      (List.filter_sublist _).map Prod.fst
    refine List.Pairwise.sublist hsub ?_
    rw [List.enumFrom_map_fst]
    exact List.pairwise_lt_range' 0 books.length

/-! ## Paying fines -/

/-- C16: `Student::payFines` on a balance of 0 reports that there is nothing to
pay, prints no prompt and leaves the record as it is, whatever the pending
input; on another balance it prompts, and the answer y or Y sets the balance to
0 (the other fields kept) while any other answer leaves the record as it is.
For Faculty and Librarian `payFines` returns the record unchanged and prints
nothing. -/
theorem payFines_cases (u : User) (c : Char) :
    (u.role = Role.student → u.fine = 0 →
      u.payFines c = (u, [PayMsg.noFinesToPay]) ∧ (u.payFines c).1.fine = 0) ∧
    (u.role = Role.student → u.fine ≠ 0 → (c = 'y' ∨ c = 'Y') →
      u.payFines c =
        ({ u with fine := 0 }, [PayMsg.payNowPrompt u.fine, PayMsg.finesCleared])) ∧
    (u.role = Role.student → u.fine ≠ 0 → ¬ (c = 'y' ∨ c = 'Y') →
      u.payFines c = (u, [PayMsg.payNowPrompt u.fine, PayMsg.cancelled])) ∧
    (u.role = Role.faculty ∨ u.role = Role.librarian → u.payFines c = (u, [])) := by
  refine ⟨?_, ?_, ?_, ?_⟩
  · intro hr h0
    have h0g : u.getFine = 0 := h0
    have : u.payFines c = (u, [PayMsg.noFinesToPay]) := by
      unfold User.payFines
      rw [hr]
      unfold Student.payFines
      simp only [if_pos h0g]
    rw [this]
    exact ⟨rfl, h0⟩
  · intro hr h0 hc
    have h0g : ¬ u.getFine = 0 := h0
    have hp : u.payFines c = Student.payFines u c := by
      unfold User.payFines
      simp only [hr]
    rw [hp]
    unfold Student.payFines
    simp only [if_neg h0g, if_pos hc]
    rfl
  · intro hr h0 hc
    have h0g : ¬ u.getFine = 0 := h0
    have hp : u.payFines c = Student.payFines u c := by
      unfold User.payFines
      simp only [hr]
    rw [hp]
    unfold Student.payFines
    simp only [if_neg h0g, if_neg hc]
    rfl
  · intro hr
    unfold User.payFines
    rcases hr with hr | hr <;> rw [hr]

/-! ## Fine balance of Faculty and Librarian -/

/-- C17: for a Faculty or Librarian user no call of `userBorrowBook`,
`userReturnBook` or `handleOverdueBook` changes the fine balance; an accepted
return writes the reset book record and adds the title to the history, and
nothing else, however many days overdue the book is. -/
theorem nonstudent_fine_unchanged (u : User)
    (hr : u.role = Role.faculty ∨ u.role = Role.librarian) :
    (∀ today books i r, userBorrowBook today books u i = some r → r.2.1.fine = u.fine) ∧
    (∀ today books i r, userReturnBook today books u i = some r → r.2.1.fine = u.fine) ∧
    (∀ today books i b, books[i]? = some b →
      (∃ r, userBorrowBook today books u i = some r) ∧
      (∃ r, userReturnBook today books u i = some r)) ∧
    (∀ daysOverdue, u.handleOverdueBook daysOverdue = u) ∧
    (∀ today books i b, books[i]? = some b → b.status ≠ "Available" →
      b.borrowedBy = u.userID →
      ∃ out, userReturnBook today books u i =
        some (books.set i { b with status := "Available", borrowedBy := "-None-",
                                   borrowDate := 0, dueDate := 0 },
              u.addHistory b.title, out)) := by
  have hns : u.role ≠ Role.student := by
    rcases hr with h | h <;> rw [h] <;> decide
  refine ⟨?_, ?_, ?_, ?_, ?_⟩
  · intro today books i r h
    rw [(userBorrowBook_some today books u i r h).1]
  · intro today books i r h
    rcases userReturnBook_fine today books u i r h with h1 | ⟨h1, -⟩
    · exact h1
    · exact absurd h1 hns
  · intro today books i b hb
    exact ⟨userBorrowBook_returns today books u i b hb, userReturnBook_returns today books u i b hb⟩
  · intro d
    unfold User.handleOverdueBook
    rcases hr with h | h <;> rw [h]
  · intro today books i b hb hst hby
    obtain ⟨out, hacc⟩ := userReturnBook_accept today books u i b hb hst hby
    have hc : ¬ (diffInDays today b.dueDate > 0 ∧ u.role = Role.student) := fun h => hns h.2
    rw [if_neg hc] at hacc
    exact ⟨out, hacc⟩

/-- Witness for C17: a Faculty user returns a book 100 days late. -/
theorem nonstudent_fine_unchanged_witness :
    ((exUser "f1" Role.faculty 7).role = Role.faculty ∨
      (exUser "f1" Role.faculty 7).role = Role.librarian) ∧
    userReturnBook 200 [exLoan "T" "f1" 100] (exUser "f1" Role.faculty 7) 0 =
      some ([exBook "T"], { exUser "f1" Role.faculty 7 with borrowHistory := ["T"] },
        [Msg.facultyBlockedNotice, Msg.bookReturned]) ∧
    ({ exUser "f1" Role.faculty 7 with borrowHistory := ["T"] } : User).fine =
      (exUser "f1" Role.faculty 7).fine :=
  ⟨Or.inl rfl, by decide,
    (nonstudent_fine_unchanged (exUser "f1" Role.faculty 7) (Or.inl rfl)).2.1 200
      [exLoan "T" "f1" 100] 0
      ([exBook "T"], { exUser "f1" Role.faculty 7 with borrowHistory := ["T"] },
        [Msg.facultyBlockedNotice, Msg.bookReturned])
      (by decide)⟩

/-! ## Removing books -/

/-- What `std::remove_if` keeps is the list without the elements that satisfy
the predicate. -/
theorem remove_if_eq_filter (pred : Book → Bool) (books : List Book) :
    remove_if pred books = books.filter (fun b => !pred b) := by
  induction books with
  | nil => rfl
  | cons b rest ih =>
    unfold remove_if
    rw [List.filter_cons, ih]
    cases hp : pred b <;> simp

/-- C18: after `removeBook(title)` the catalog is the original one without the
books whose title equals `title` (all of them): no remaining book has that
title, every book with another title is still there, and the remaining books
keep their relative order; if no book has that title the catalog is unchanged. -/
theorem removeBook_exact (books : List Book) (title : String) :
    (removeBook books title).1 = books.filter (fun b => decide (b.title ≠ title)) ∧
    (∀ b ∈ (removeBook books title).1, b.title ≠ title) ∧
    (∀ b ∈ books, b.title ≠ title → b ∈ (removeBook books title).1) ∧
    List.Sublist (removeBook books title).1 books ∧
    ((∀ b ∈ books, b.title ≠ title) →
      removeBook books title = (books, [ShelfMsg.noBookWithThatTitle])) ∧
    ((∃ b ∈ books, b.title = title) → (removeBook books title).2 = [ShelfMsg.removed]) := by
  have hfst : (removeBook books title).1 = books.filter (fun b => decide (b.title ≠ title)) := by
    unfold removeBook
    simp only [remove_if_eq_filter, Book.getTitle]
    split <;> simp
  have hkeep : (∀ b ∈ books, b.title ≠ title) →
      books.filter (fun b => decide (b.title ≠ title)) = books := by
    intro h
    apply List.filter_eq_self.mpr
    intro b hb
    exact decide_eq_true (h b hb)
  refine ⟨hfst, ?_, ?_, ?_, ?_, ?_⟩
  · intro b hb
    rw [hfst] at hb
    exact of_decide_eq_true (List.mem_filter.mp hb).2
  · intro b hb hne
    rw [hfst]
    exact List.mem_filter.mpr ⟨hb, decide_eq_true hne⟩
  · rw [hfst]
    exact List.filter_sublist _
  · intro h
    have hk := hkeep h
    have hr : remove_if (fun b => decide (b.getTitle = title)) books = books := by
      rw [remove_if_eq_filter]
      simpa [Book.getTitle] using hk
    unfold removeBook
    simp only [hr, if_true]
  · rintro ⟨b, hb, hbt⟩
    have hlen : ¬ (remove_if (fun b => decide (b.getTitle = title)) books).length
        = books.length := by
      intro hl
      have hsub : List.Sublist (remove_if (fun b => decide (b.getTitle = title)) books) books := by
        rw [remove_if_eq_filter]
        exact List.filter_sublist _
      have heq := hsub.eq_of_length hl
      have hmem : b ∈ remove_if (fun b => decide (b.getTitle = title)) books := by
        rw [heq]
        exact hb
      rw [remove_if_eq_filter] at hmem
      have := (List.mem_filter.mp hmem).2
      simp [Book.getTitle, hbt] at this
    unfold removeBook
    simp only [if_neg hlen]

/-! ## Loading -/

/-- C19, evaluated: a catalog file whose first record has the year "abc" and
whose second record is well formed, and an account file whose first record has
the fine "none": `std::stoi` throws, nothing catches the exception, and neither
load completes, although each second record loads when it stands alone.  A
line with too few fields is skipped. -/
theorem load_aborts_on_non_numeric_field :
    loadBooks [] "BookData.csv"
        (some "T,A,I,P,abc,Available,0,0,-None-\nU,A,I,P,2001,Available,0,0,-None-") = none ∧
    loadBooks [] "BookData.csv" (some "U,A,I,P,2001,Available,0,0,-None-") =
      some ([Book.mk5 "U" "A" "I" "P" 2001], []) ∧
    loadBooks [] "BookData.csv" (some "T,A,I,P\nU,A,I,P,2001,Available,0,0,-None-") =
      some ([Book.mk5 "U" "A" "I" "P" 2001], []) ∧
    loadAccounts [] "AccountData.csv" (some "ann,pw,student,s1,none\nbob,pw,faculty,f1,0") =
      none ∧
    loadAccounts [] "AccountData.csv" (some "bob,pw,faculty,f1,0") =
      some ([Account.mk "bob" "pw" "faculty" (User.new "bob" "f1" Role.faculty)], []) := by
  decide

/-- The history tokens do not change the dynamic type of the user. -/
theorem addHistoryTokens_role (u : User) (toks : List String) :
    (addHistoryTokens u toks).role = u.role := by
  induction toks generalizing u with
  | nil => rfl
  | cons t rest ih =>
    unfold addHistoryTokens
    split
    · rw [ih]
      rfl
    · exact ih u

/-- One line of the account file either leaves `accounts` as it is or adds one
account, whose role tag is the third field of the line and agrees with the
variant of the user it owns. -/
theorem loadAccountsLine_cases (st : List Account × List LoadMsg) (line : String)
    (r : List Account × List LoadMsg) (h : loadAccountsLine st line = some r) :
    r.1 = st.1 ∨
      ∃ a, r.1 = st.1 ++ [a] ∧ a.role = (splitFields line).getD 2 "" ∧ a.roleAgrees := by
  unfold loadAccountsLine at h
  by_cases h5 : line.length < 5
  · rw [if_pos h5] at h
    cases h
    exact Or.inl rfl
  · rw [if_neg h5] at h
    dsimp only at h
    by_cases ht : (splitFields line).length < 5
    · rw [if_pos ht] at h
      cases h
      exact Or.inl rfl
    · rw [if_neg ht] at h
      cases hs : stoi ((splitFields line).getD 4 "") with
      | none =>
        rw [hs] at h
        exact Option.noConfusion h
      | some fn =>
        rw [hs] at h
        dsimp only at h
        by_cases h1 : (splitFields line).getD 2 "" = "student"
        · rw [if_pos h1] at h
          cases h
          exact Or.inr ⟨_, rfl, rfl, Or.inl ⟨h1, by simp only [addHistoryTokens_role]; rfl⟩⟩
        · rw [if_neg h1] at h
          by_cases h2 : (splitFields line).getD 2 "" = "faculty"
          · rw [if_pos h2] at h
            cases h
            exact Or.inr ⟨_, rfl, rfl,
              Or.inr (Or.inl ⟨h2, by simp only [addHistoryTokens_role]; rfl⟩)⟩
          · rw [if_neg h2] at h
            by_cases h3 : (splitFields line).getD 2 "" = "librarian"
            · rw [if_pos h3] at h
              cases h
              exact Or.inr ⟨_, rfl, rfl,
                Or.inr (Or.inr ⟨h3, by simp only [addHistoryTokens_role]; rfl⟩)⟩
            · rw [if_neg h3] at h
              cases h
              exact Or.inl rfl

/-- The loop of `loadAccounts` keeps the agreement of role tag and variant. -/
theorem loadAccountsLoop_roleAgrees (lines : List String) (st r : List Account × List LoadMsg)
    (hst : ∀ a ∈ st.1, a.roleAgrees) (h : loadAccountsLoop st lines = some r) :
    ∀ a ∈ r.1, a.roleAgrees := by
  induction lines generalizing st with
  | nil =>
    unfold loadAccountsLoop at h
    cases h
    exact hst
  | cons line rest ih =>
    unfold loadAccountsLoop at h
    split at h
    · exact Option.noConfusion h
    · rename_i st1 hline
      apply ih st1 _ h
      rcases loadAccountsLine_cases st line st1 hline with h1 | ⟨a, h1, -, h2⟩
      · rw [h1]
        exact hst
      · rw [h1]
        intro x hx
        rcases List.mem_append.mp hx with hx | hx
        · exact hst x hx
        · rw [List.mem_singleton.mp hx]
          exact h2

/-- C20: every Account that `loadAccounts` produces (starting, as the
constructor of `Library` does, from no account) has a role tag that agrees with
the variant of its User; a record whose role field is none of "student",
"faculty", "librarian" adds no Account. -/
theorem loadAccounts_roleAgrees (fname : String) (file : Option String)
    (r : List Account × List LoadMsg) (h : loadAccounts [] fname file = some r) :
    (∀ a ∈ r.1, a.roleAgrees) ∧
    (∀ st line r1, (splitFields line).getD 2 "" ≠ "student" →
      (splitFields line).getD 2 "" ≠ "faculty" →
      (splitFields line).getD 2 "" ≠ "librarian" →
      loadAccountsLine st line = some r1 → r1.1 = st.1) := by
  constructor
  · unfold loadAccounts at h
    split at h
    · cases h
      intro a ha
      exact absurd ha (List.not_mem_nil a)
    · exact loadAccountsLoop_roleAgrees _ _ r (fun a ha => absurd ha (List.not_mem_nil a)) h
  · intro st line r1 h1 h2 h3 hline
    rcases loadAccountsLine_cases st line r1 hline with hc | ⟨a, -, hrole, hag⟩
    · exact hc
    · rw [← hrole] at h1 h2 h3
      rcases hag with ⟨hr, -⟩ | ⟨hr, -⟩ | ⟨hr, -⟩
      · exact absurd hr h1
      · exact absurd hr h2
      · exact absurd hr h3

/-- Witness for C20: a file with a Student (with history), a Faculty, a record
of role "admin" and a Librarian gives three accounts and one warning. -/
theorem loadAccounts_roleAgrees_witness :
    loadAccounts [] "AccountData.csv"
        (some "ann,pw,student,s1,30,T1,,T2\nbob,pw,faculty,f1,0\ncat,pw,admin,x1,0\ndan,pw,librarian,l1,0") =
      some ([Account.mk "ann" "pw" "student"
               { User.new "ann" "s1" Role.student with fine := 30, borrowHistory := ["T1", "T2"] },
             Account.mk "bob" "pw" "faculty" (User.new "bob" "f1" Role.faculty),
             Account.mk "dan" "pw" "librarian" (User.new "dan" "l1" Role.librarian)],
            [LoadMsg.unknownRole "admin"]) ∧
    ∀ a ∈ [Account.mk "ann" "pw" "student"
               { User.new "ann" "s1" Role.student with fine := 30, borrowHistory := ["T1", "T2"] },
             Account.mk "bob" "pw" "faculty" (User.new "bob" "f1" Role.faculty),
             Account.mk "dan" "pw" "librarian" (User.new "dan" "l1" Role.librarian)],
      a.roleAgrees :=
  ⟨by decide,
    (loadAccounts_roleAgrees "AccountData.csv"
      (some "ann,pw,student,s1,30,T1,,T2\nbob,pw,faculty,f1,0\ncat,pw,admin,x1,0\ndan,pw,librarian,l1,0")
      ([Account.mk "ann" "pw" "student"
               { User.new "ann" "s1" Role.student with fine := 30, borrowHistory := ["T1", "T2"] },
             Account.mk "bob" "pw" "faculty" (User.new "bob" "f1" Role.faculty),
             Account.mk "dan" "pw" "librarian" (User.new "dan" "l1" Role.librarian)],
            [LoadMsg.unknownRole "admin"])
      (by decide)).1⟩

/-! ## A Librarian borrows -/

/-- C23: `userBorrowBook` does not consult `canBorrowMore` for a Librarian.  For
every Librarian and every book whose status is not "Borrowed" the call succeeds
and the book becomes Borrowed, held by the Librarian, with
`borrowDate = dueDate = today`, although `Librarian::canBorrowMore` answers
false on every holdings list. -/
theorem userBorrowBook_librarian (today : Int) (books : List Book) (u : User) (i : Nat)
    (b : Book) (hr : u.role = Role.librarian) (hb : books[i]? = some b)
    (hst : b.status ≠ "Borrowed") :
    (∀ myBooks, u.canBorrowMore myBooks = false) ∧
    userBorrowBook today books u i =
      some (books.set i { b with status := "Borrowed", borrowedBy := u.userID,
                                 borrowDate := today, dueDate := today },
            u, [Msg.successfullyBorrowed b.title 0]) ∧
    (books.set i { b with status := "Borrowed", borrowedBy := u.userID,
                          borrowDate := today, dueDate := today })[i]? =
      some { b with status := "Borrowed", borrowedBy := u.userID,
                    borrowDate := today, dueDate := today } := by
  have hlt : i < books.length := (List.getElem?_eq_some_iff.mp hb).1
  have hdays : u.getBorrowDays = 0 := by
    unfold User.getBorrowDays
    rw [hr]
  have hacc := userBorrowBook_accept today books u i b hb
    (fun h => by rw [hr] at h; exact Role.noConfusion h)
    (fun h => by rw [hr] at h; exact Role.noConfusion h) hst
  rw [hdays, Int.add_zero] at hacc
  refine ⟨?_, hacc, by simp [List.getElem?_set, hlt]⟩
  intro myBooks
  unfold User.canBorrowMore
  rw [hr]

/-- Witness for C23: the Librarian "l1" borrows an available book on day 100. -/
theorem userBorrowBook_librarian_witness :
    ((exUser "l1" Role.librarian 0).role = Role.librarian ∧
      [exBook "T"][0]? = some (exBook "T") ∧ (exBook "T").status ≠ "Borrowed") ∧
    userBorrowBook 100 [exBook "T"] (exUser "l1" Role.librarian 0) 0 =
      some ([exBook "T"].set 0
              { exBook "T" with status := "Borrowed", borrowedBy := "l1",
                                borrowDate := 100, dueDate := 100 },
            exUser "l1" Role.librarian 0, [Msg.successfullyBorrowed "T" 0]) :=
  ⟨⟨rfl, rfl, by decide⟩,
    (userBorrowBook_librarian 100 [exBook "T"] (exUser "l1" Role.librarian 0) 0 (exBook "T")
      rfl rfl (by decide)).2.1⟩

/-! ## Frame -/

/-- A record written at position `i` leaves the length and every other position
of the catalog as they were. -/
theorem set_frame (books : List Book) (i : Nat) (b1 : Book) :
    (books.set i b1).length = books.length ∧
    ∀ n, n ≠ i → (books.set i b1)[n]? = books[n]? := by
  refine ⟨List.length_set _ _ _, ?_⟩
  intro n hn
  exact List.getElem?_set_ne (fun h => hn h.symm)

/-- C24: a call of `userBorrowBook` or `userReturnBook` that returns leaves the
number of books, every book at another position than the target, the title,
author, ISBN, publisher and year of the target, and the name, `userID` (and
dynamic type) of the user as they were; both return when the book pointer is
valid. -/
theorem borrow_return_frame (today : Int) (books : List Book) (u : User) (i : Nat) :
    (∀ r, userBorrowBook today books u i = some r ∨ userReturnBook today books u i = some r →
      r.1.length = books.length ∧
      (∀ n, n ≠ i → r.1[n]? = books[n]?) ∧
      (∀ b, books[i]? = some b →
        ∃ b1, r.1[i]? = some b1 ∧ b1.title = b.title ∧ b1.author = b.author ∧
          b1.isbn = b.isbn ∧ b1.publisher = b.publisher ∧ b1.year = b.year) ∧
      r.2.1.name = u.name ∧ r.2.1.userID = u.userID ∧ r.2.1.role = u.role) ∧
    (∀ b, books[i]? = some b →
      (∃ r, userBorrowBook today books u i = some r) ∧
      (∃ r, userReturnBook today books u i = some r)) := by
  have hsame : ∀ b, books[i]? = some b →
      ∃ b1, books[i]? = some b1 ∧ b1.title = b.title ∧ b1.author = b.author ∧
        b1.isbn = b.isbn ∧ b1.publisher = b.publisher ∧ b1.year = b.year :=
    fun b hb => ⟨b, hb, rfl, rfl, rfl, rfl, rfl⟩
  have hset : ∀ b b1 b2 : Book, books[i]? = some b → books[i]? = some b2 →
      b1.title = b.title → b1.author = b.author → b1.isbn = b.isbn →
      b1.publisher = b.publisher → b1.year = b.year →
      ∃ b3, (books.set i b1)[i]? = some b3 ∧ b3.title = b2.title ∧ b3.author = b2.author ∧
        b3.isbn = b2.isbn ∧ b3.publisher = b2.publisher ∧ b3.year = b2.year := by
    intro b b1 b2 hb hb2 h1 h2 h3 h4 h5
    have hlt : i < books.length := (List.getElem?_eq_some_iff.mp hb).1
    have hbb : b = b2 := Option.some.inj (hb.symm.trans hb2)
    subst hbb
    exact ⟨b1, by simp [List.getElem?_set, hlt], h1, h2, h3, h4, h5⟩
  constructor
  · rintro r (h | h)
    · obtain ⟨hu, hcase⟩ := userBorrowBook_some today books u i r h
      rw [hu]
      rcases hcase with hbooks | ⟨b, hb, -, hbooks⟩
      · rw [hbooks]
        exact ⟨rfl, fun _ _ => rfl, hsame, rfl, rfl, rfl⟩
      · rw [hbooks]
        exact ⟨(set_frame books i _).1, (set_frame books i _).2,
          fun b2 hb2 => hset b _ b2 hb hb2 rfl rfl rfl rfl rfl, rfl, rfl, rfl⟩
    · obtain ⟨b, hb, hcase⟩ := userReturnBook_some today books u i r h
      rcases hcase with ⟨hbooks, hu⟩ | ⟨hst, hby⟩
      · rw [hbooks, hu]
        exact ⟨rfl, fun _ _ => rfl, hsame, rfl, rfl, rfl⟩
      · obtain ⟨out, hacc⟩ := userReturnBook_accept today books u i b hb hst hby
        rw [hacc] at h
        cases h
        refine ⟨(set_frame books i _).1, (set_frame books i _).2,
          fun b2 hb2 => hset b _ b2 hb hb2 rfl rfl rfl rfl rfl, ?_, ?_, ?_⟩
        all_goals
          simp only [User.addHistory]
          split <;> rfl
  · intro b hb
    exact ⟨userBorrowBook_returns today books u i b hb, userReturnBook_returns today books u i b hb⟩

/-! ## The Student limit along a run -/

/-- Writing one record changes the number of records that satisfy a condition
by at most one, and does not raise it when the new record fails the condition. -/
theorem filter_set_length (p : Book → Bool) (books : List Book) (i : Nat) (b1 : Book) :
    ((books.set i b1).filter p).length ≤ (books.filter p).length + 1 ∧
    (p b1 = false → ((books.set i b1).filter p).length ≤ (books.filter p).length) := by
  induction books generalizing i with
  | nil => simp
  | cons bk rest ih =>
    cases i with
    | zero =>
      simp only [List.set_cons_zero, List.filter_cons]
      constructor
      · cases p b1 <;> cases p bk <;> (simp; try omega)
      · intro h
        rw [h]
        cases p bk <;> simp
    | succ n =>
      simp only [List.set_cons_succ, List.filter_cons]
      obtain ⟨h1, h2⟩ := ih n
      constructor
      · cases p bk
        · simpa using h1
        · simpa using h1
      · intro h
        have := h2 h
        cases p bk
        · simpa using this
        · simpa using this

/-- A call of `userBorrowBook` that writes the catalog has passed the Student
check. -/
theorem userBorrowBook_some_checked (today : Int) (books : List Book) (u : User) (i : Nat)
    (r : List Book × User × List Msg) (h : userBorrowBook today books u i = some r) :
    r.1 = books ∨
      ((u.role = Role.student →
          u.canBorrowMore (gatherUserBorrowed books u.userID) = true) ∧
        ∃ b, books[i]? = some b ∧ b.status ≠ "Borrowed" ∧
          r.1 = books.set i { b with status := "Borrowed", borrowedBy := u.userID,
                                     borrowDate := today,
                                     dueDate := today + u.getBorrowDays }) := by
  unfold userBorrowBook at h
  split at h
  · cases h
    exact Or.inl rfl
  · rename_i hstu
    split at h
    · cases h
      exact Or.inl rfl
    · split at h
      · exact Option.noConfusion h
      · rename_i b hb
        split at h
        · cases h
          exact Or.inl rfl
        · rename_i hst
          cases h
          refine Or.inr ⟨?_, b, hb, hst, rfl⟩
          intro hr
          cases hc : u.canBorrowMore (gatherUserBorrowed books u.userID) with
          | true => rfl
          | false => exact absurd ⟨hr, hc⟩ hstu

/-- One `userBorrowBook` call keeps the holdings of `sid` at three or fewer,
when the caller is a Student if it carries the identifier `sid`. -/
theorem heldCount_borrow (sid : String) (today : Int) (books : List Book) (u : User) (i : Nat)
    (r : List Book × User × List Msg) (hstu : u.userID = sid → u.role = Role.student)
    (h0 : heldCount books sid ≤ 3) (h : userBorrowBook today books u i = some r) :
    heldCount r.1 sid ≤ 3 := by
  rcases userBorrowBook_some_checked today books u i r h with hb | ⟨hcheck, b, -, -, hset⟩
  · rw [hb]
    exact h0
  · rw [hset]
    unfold heldCount at h0 ⊢
    obtain ⟨h1, h2⟩ := filter_set_length
      (fun bk => decide (bk.borrowedBy = sid ∧ bk.status = "Borrowed")) books i
      { b with status := "Borrowed", borrowedBy := u.userID, borrowDate := today,
               dueDate := today + u.getBorrowDays }
    by_cases hid : u.userID = sid
    · have hcan := hcheck (hstu hid)
      have hlen : (gatherUserBorrowed books u.userID).length < 3 := by
        unfold User.canBorrowMore at hcan
        rw [hstu hid] at hcan
        simp only [Student.MAX_BOOKS] at hcan
        by_contra hge
        have hge2 : ((gatherUserBorrowed books u.userID).length : Int) ≥ 3 := by
          have : 3 ≤ (gatherUserBorrowed books u.userID).length := Nat.le_of_not_lt hge
          exact_mod_cast this
        rw [if_pos hge2] at hcan
        split at hcan <;> exact Bool.noConfusion hcan
      unfold gatherUserBorrowed at hlen
      rw [gatherFrom_length, hid] at hlen
      omega
    · apply le_trans (h2 _) h0
      apply decide_eq_false
      rintro ⟨hc, -⟩
      exact hid hc

/-- One `userReturnBook` call does not raise the holdings of anybody. -/
theorem heldCount_return (sid : String) (today : Int) (books : List Book) (u : User) (i : Nat)
    (r : List Book × User × List Msg) (h : userReturnBook today books u i = some r) :
    heldCount r.1 sid ≤ heldCount books sid := by
  obtain ⟨b, hb, hcase⟩ := userReturnBook_some today books u i r h
  rcases hcase with ⟨hbooks, -⟩ | ⟨hst, hby⟩
  · rw [hbooks]
  · obtain ⟨out, hacc⟩ := userReturnBook_accept today books u i b hb hst hby
    rw [hacc] at h
    cases h
    unfold heldCount
    apply (filter_set_length _ books i _).2
    apply decide_eq_false
    rintro ⟨-, hc⟩
    have hne : ("Available" : String) ≠ "Borrowed" := by decide
    exact hne hc

/-- C22: from a catalog in which the Student `sid` holds at most 3 books, every
sequence of `userBorrowBook` and `userReturnBook` calls, by any users on any
days, in which every caller carrying the identifier `sid` is a Student, ends in
a catalog in which `sid` still holds at most 3 books; the sequence runs to its
end when every book pointer is valid. -/
theorem student_limit_along_run (sid : String) (calls : List Call) (books : List Book)
    (hstu : ∀ c ∈ calls, c.user.userID = sid → c.user.role = Role.student)
    (h0 : heldCount books sid ≤ 3) :
    (∀ books1, runCalls books calls = some books1 → heldCount books1 sid ≤ 3) ∧
    ((∀ c ∈ calls, c.index < books.length) → ∃ books1, runCalls books calls = some books1) := by
  induction calls generalizing books with
  | nil =>
    constructor
    · intro books1 h
      unfold runCalls at h
      cases h
      exact h0
    · intro _
      exact ⟨books, rfl⟩
  | cons c rest ih =>
    have hrest : ∀ c1 ∈ rest, c1.user.userID = sid → c1.user.role = Role.student :=
      fun c1 hc1 => hstu c1 (List.mem_cons_of_mem _ hc1)
    have hc := hstu c (List.mem_cons_self _ _)
    cases c with
    | borrow today u i =>
      constructor
      · intro books1 h
        unfold runCalls at h
        split at h
        · exact Option.noConfusion h
        · rename_i r hr
          exact (ih r.1 hrest (heldCount_borrow sid today books u i r hc h0 hr)).1 books1 h
      · intro hidx
        have hi : i < books.length := hidx _ (List.mem_cons_self _ _)
        obtain ⟨r, hr⟩ := userBorrowBook_returns today books u i books[i]
          (List.getElem?_eq_getElem hi)
        have hlen : r.1.length = books.length := by
          rcases (userBorrowBook_some today books u i r hr).2 with h1 | ⟨b, -, -, h1⟩
          · rw [h1]
          · rw [h1, List.length_set]
        obtain ⟨books1, h1⟩ := (ih r.1 hrest (heldCount_borrow sid today books u i r hc h0 hr)).2
          (fun c1 hc1 => by rw [hlen]; exact hidx c1 (List.mem_cons_of_mem _ hc1))
        refine ⟨books1, ?_⟩
        unfold runCalls
        rw [hr]
        exact h1
    | giveBack today u i =>
      have hstep : ∀ r, userReturnBook today books u i = some r → heldCount r.1 sid ≤ 3 :=
        fun r hr => le_trans (heldCount_return sid today books u i r hr) h0
      constructor
      · intro books1 h
        unfold runCalls at h
        split at h
        · exact Option.noConfusion h
        · rename_i r hr
          exact (ih r.1 hrest (hstep r hr)).1 books1 h
      · intro hidx
        have hi : i < books.length := hidx _ (List.mem_cons_self _ _)
        obtain ⟨r, hr⟩ := userReturnBook_returns today books u i books[i]
          (List.getElem?_eq_getElem hi)
        have hlen : r.1.length = books.length := by
          obtain ⟨b, hb, hcase⟩ := userReturnBook_some today books u i r hr
          rcases hcase with ⟨h1, -⟩ | ⟨hst, hby⟩
          · rw [h1]
          · obtain ⟨out, hacc⟩ := userReturnBook_accept today books u i b hb hst hby
            rw [hacc] at hr
            cases hr
            exact List.length_set _ _ _
        obtain ⟨books1, h1⟩ := (ih r.1 hrest (hstep r hr)).2
          (fun c1 hc1 => by rw [hlen]; exact hidx c1 (List.mem_cons_of_mem _ hc1))
        refine ⟨books1, ?_⟩
        unfold runCalls
        rw [hr]
        exact h1

/-- Witness for C22: the Student "s1" asks for four available books in a row
and then returns the first one. -/
theorem student_limit_along_run_witness :
    ∃ books1,
      runCalls [exBook "A", exBook "B", exBook "C", exBook "D"]
        [Call.borrow 100 (exUser "s1" Role.student 0) 0,
         Call.borrow 100 (exUser "s1" Role.student 0) 1,
         Call.borrow 100 (exUser "s1" Role.student 0) 2,
         Call.borrow 100 (exUser "s1" Role.student 0) 3,
         Call.giveBack 101 (exUser "s1" Role.student 0) 0] = some books1 ∧
      heldCount books1 "s1" ≤ 3 :=
  ((student_limit_along_run "s1"
      [Call.borrow 100 (exUser "s1" Role.student 0) 0,
       Call.borrow 100 (exUser "s1" Role.student 0) 1,
       Call.borrow 100 (exUser "s1" Role.student 0) 2,
       Call.borrow 100 (exUser "s1" Role.student 0) 3,
       Call.giveBack 101 (exUser "s1" Role.student 0) 0]
      [exBook "A", exBook "B", exBook "C", exBook "D"] (by decide) (by decide)).2
    (by decide)).elim
    (fun books1 h => ⟨books1, h,
      (student_limit_along_run "s1"
        [Call.borrow 100 (exUser "s1" Role.student 0) 0,
         Call.borrow 100 (exUser "s1" Role.student 0) 1,
         Call.borrow 100 (exUser "s1" Role.student 0) 2,
         Call.borrow 100 (exUser "s1" Role.student 0) 3,
         Call.giveBack 101 (exUser "s1" Role.student 0) 0]
        [exBook "A", exBook "B", exBook "C", exBook "D"] (by decide) (by decide)).1 books1 h⟩)

/-! ## Writing and reading numbers -/

/-- What `stoi` and the two splitting loops see of a digit character. -/
theorem isDigitChar_facts (c : Char) (h : isDigitChar c) :
    c.isDigit = true ∧ isspace c = false ∧ c ≠ '-' ∧ c ≠ '+' ∧ c ≠ ',' ∧
      c ≠ Char.ofNat 10 := by
  obtain ⟨d, hd, rfl⟩ := h
  revert d
  decide

/-- The value of the digit `d` written as a character. -/
theorem digit_toNat (d : Nat) (hd : d < 10) : (Char.ofNat (48 + d)).toNat - 48 = d := by
  revert d
  decide

theorem digitsValue_append_single (ds : List Char) (c : Char) :
    digitsValue (ds ++ [c]) = digitsValue ds * 10 + (c.toNat - 48) := by
  simp [digitsValue, List.foldl_append]

/-- The digits `showNatLoop` writes: at least one, all of them digit characters,
and their value is the number written. -/
theorem showNatLoop_spec (fuel n : Nat) (acc : List Char) (h : n < fuel) :
    ∃ ds, showNatLoop fuel n acc = ds ++ acc ∧ ds ≠ [] ∧
      (∀ c ∈ ds, isDigitChar c) ∧ digitsValue ds = n := by
  induction fuel generalizing n acc with
  | zero => exact absurd h (Nat.not_lt_zero n)
  | succ fuel ih =>
    unfold showNatLoop
    have hmod : n % 10 < 10 := Nat.mod_lt n (by decide)
    by_cases hq : n / 10 = 0
    · simp only [if_pos hq]
      refine ⟨[Char.ofNat (48 + n % 10)], rfl, by simp, ?_, ?_⟩
      · intro c hc
        rw [List.mem_singleton.mp hc]
        exact ⟨n % 10, hmod, rfl⟩
      · have : digitsValue [Char.ofNat (48 + n % 10)] = (Char.ofNat (48 + n % 10)).toNat - 48 := by
          simp [digitsValue]
        rw [this, digit_toNat _ hmod]
        omega
    · simp only [if_neg hq]
      have hlt : n / 10 < fuel := by omega
      obtain ⟨ds, h1, -, h3, h4⟩ := ih (n / 10) (Char.ofNat (48 + n % 10) :: acc) hlt
      refine ⟨ds ++ [Char.ofNat (48 + n % 10)], ?_, by simp, ?_, ?_⟩
      · rw [h1]
        simp
      · intro c hc
        rcases List.mem_append.mp hc with hc | hc
        · exact h3 c hc
        · rw [List.mem_singleton.mp hc]
          exact ⟨n % 10, hmod, rfl⟩
      · rw [digitsValue_append_single, h4, digit_toNat _ hmod]
        omega

theorem takeWhile_digits (ds : List Char) (hall : ∀ c ∈ ds, isDigitChar c) :
    ds.takeWhile Char.isDigit = ds := by
  induction ds with
  | nil => rfl
  | cons c rest ih =>
    have hc := (isDigitChar_facts c (hall c (List.mem_cons_self _ _))).1
    rw [List.takeWhile_cons, hc]
    simp only [if_true]
    rw [ih (fun x hx => hall x (List.mem_cons_of_mem _ hx))]

/-- `stoi` reads back a run of digits. -/
theorem stoi_digits (ds : List Char) (hne : ds ≠ []) (hall : ∀ c ∈ ds, isDigitChar c)
    (hrange : (digitsValue ds : Int) ≤ 2147483647) :
    stoi (String.mk ds) = some (digitsValue ds : Int) := by
  cases ds with
  | nil => exact absurd rfl hne
  | cons c rest =>
    obtain ⟨-, hsp, hminus, hplus, -, -⟩ := isDigitChar_facts c (hall c (List.mem_cons_self _ _))
    have hdrop : (c :: rest).dropWhile isspace = c :: rest := by
      rw [List.dropWhile_cons, hsp]
      rfl
    unfold stoi
    simp only [String.toList, hdrop]
    have hbody : (match c :: rest with
        | '-' :: r => r
        | '+' :: r => r
        | _ => c :: rest) = c :: rest := by
      split
      · rename_i r heq
        exact absurd (List.cons.inj heq).1 hminus
      · rename_i r heq
        exact absurd (List.cons.inj heq).1 hplus
      · rfl
    have hneg : (match c :: rest with
        | '-' :: _ => true
        | _ => false) = false := by
      split
      · rename_i r heq
        exact absurd (List.cons.inj heq).1 hminus
      · rfl
    rw [hbody, hneg, takeWhile_digits _ hall]
    simp only [if_neg hne, Bool.false_eq_true, if_false]
    have hnot : ¬ ((digitsValue (c :: rest) : Int) < -2147483648 ∨
        (digitsValue (c :: rest) : Int) > 2147483647) := by
      omega
    rw [if_neg hnot]

/-- `stoi` reads back a minus sign followed by a run of digits. -/
theorem stoi_minus_digits (ds : List Char) (hne : ds ≠ []) (hall : ∀ c ∈ ds, isDigitChar c)
    (hrange : (digitsValue ds : Int) ≤ 2147483648) :
    stoi (String.mk ('-' :: ds)) = some (-(digitsValue ds : Int)) := by
  have hdrop : ('-' :: ds).dropWhile isspace = '-' :: ds := by
    rw [List.dropWhile_cons]
    rfl
  unfold stoi
  simp only [String.toList, hdrop]
  rw [takeWhile_digits _ hall]
  simp only [if_neg hne, if_true]
  have hnot : ¬ (-(digitsValue ds : Int) < -2147483648 ∨
      -(digitsValue ds : Int) > 2147483647) := by
    omega
  rw [if_neg hnot]

/-- The number `showInt` writes is the number `stoi` reads. -/
theorem stoi_showInt (n : Int) (h : isInt32 n) : stoi (showInt n) = some n := by
  unfold isInt32 at h
  unfold showInt
  by_cases hn : n < 0
  · rw [if_pos hn]
    obtain ⟨ds, h1, h2, h3, h4⟩ := showNatLoop_spec (n.natAbs + 1) n.natAbs [] (Nat.lt_succ_self _)
    rw [h1, List.append_nil]
    have hv : (digitsValue ds : Int) = -n := by
      rw [h4]
      omega
    rw [stoi_minus_digits ds h2 h3 (by omega), hv, neg_neg]
  · rw [if_neg hn]
    obtain ⟨ds, h1, h2, h3, h4⟩ := showNatLoop_spec (n.toNat + 1) n.toNat [] (Nat.lt_succ_self _)
    rw [h1, List.append_nil]
    have hv : (digitsValue ds : Int) = n := by
      rw [h4]
      omega
    rw [stoi_digits ds h2 h3 (by omega), hv]

/-- The characters `showInt` writes are a minus sign and digits: no comma and no
line break, and at least one character. -/
theorem showInt_chars (n : Int) :
    (showInt n).toList ≠ [] ∧ ',' ∉ (showInt n).toList ∧
      Char.ofNat 10 ∉ (showInt n).toList := by
  have hds : ∀ ds : List Char, (∀ c ∈ ds, isDigitChar c) →
      ',' ∉ ds ∧ Char.ofNat 10 ∉ ds := by
    intro ds hall
    constructor
    · intro hc
      exact (isDigitChar_facts _ (hall _ hc)).2.2.2.2.1 rfl
    · intro hc
      exact (isDigitChar_facts _ (hall _ hc)).2.2.2.2.2 rfl
  unfold showInt
  by_cases hn : n < 0
  · rw [if_pos hn]
    obtain ⟨ds, h1, -, h3, -⟩ := showNatLoop_spec (n.natAbs + 1) n.natAbs [] (Nat.lt_succ_self _)
    rw [h1, List.append_nil]
    obtain ⟨h5, h6⟩ := hds ds h3
    refine ⟨by simp [String.toList], ?_, ?_⟩
    · simp only [String.toList, List.mem_cons, not_or]
      exact ⟨by decide, h5⟩
    · simp only [String.toList, List.mem_cons, not_or]
      exact ⟨by decide, h6⟩
  · rw [if_neg hn]
    obtain ⟨ds, h1, h2, h3, -⟩ := showNatLoop_spec (n.toNat + 1) n.toNat [] (Nat.lt_succ_self _)
    rw [h1, List.append_nil]
    exact ⟨h2, hds ds h3⟩

/-! ## Splitting what was written -/

/-- The splitting loop on a piece without delimiter that is followed by a
delimiter: the piece is returned and the loop goes on after the delimiter. -/
theorem getlineLoop_piece (delim : Char) (piece rest cur : List Char) (h : delim ∉ piece) :
    getlineLoop delim (piece ++ delim :: rest) cur =
      String.mk (cur.reverse ++ piece) :: getlineLoop delim rest [] := by
  induction piece generalizing cur with
  | nil =>
    simp only [List.nil_append, List.append_nil]
    rw [getlineLoop, if_pos rfl]
  | cons c piece ih =>
    have hc : ¬ c = delim := fun hc => h (hc ▸ List.mem_cons_self _ _)
    have hrest : delim ∉ piece := fun hm => h (List.mem_cons_of_mem _ hm)
    rw [List.cons_append, getlineLoop, if_neg hc, ih (c :: cur) hrest]
    simp

/-- The splitting loop on a last piece without delimiter: it is returned when it
is not empty. -/
theorem getlineLoop_last (delim : Char) (piece cur : List Char) (h : delim ∉ piece)
    (hne : cur.reverse ++ piece ≠ []) :
    getlineLoop delim piece cur = [String.mk (cur.reverse ++ piece)] := by
  induction piece generalizing cur with
  | nil =>
    have hcur : cur ≠ [] := by
      intro hc
      rw [hc] at hne
      exact hne rfl
    rw [getlineLoop, if_neg hcur, List.append_nil]
  | cons c piece ih =>
    have hc : ¬ c = delim := fun hc => h (hc ▸ List.mem_cons_self _ _)
    have hrest : delim ∉ piece := fun hm => h (List.mem_cons_of_mem _ hm)
    rw [getlineLoop, if_neg hc, ih (c :: cur) hrest (by simp)]
    simp

/-- The characters of a line of the catalog file. -/
theorem saveBooksLine_toList (b : Book) :
    (saveBooksLine b).toList =
      b.title.toList ++ ',' :: (b.author.toList ++ ',' :: (b.isbn.toList ++ ',' ::
        (b.publisher.toList ++ ',' :: ((showInt b.year).toList ++ ',' ::
          (b.status.toList ++ ',' :: ((showInt b.borrowDate).toList ++ ',' ::
            ((showInt b.dueDate).toList ++ ',' :: b.borrowedBy.toList))))))) := by
  have hcomma : (",": String).data = [','] := rfl
  simp only [saveBooksLine, String.toList, String.data_append, hcomma, Book.getTitle,
    Book.getAuthor, Book.getISBN, Book.getPublisher, Book.getYear, Book.getStatus,
    Book.getBorrowDate, Book.getDueDate, Book.getBorrowedBy, List.append_assoc,
    List.singleton_append, List.cons_append, List.nil_append]

/-- The fields `loadBooks` finds in a line that `saveBooks` wrote. -/
theorem splitFields_saveBooksLine (b : Book) (hp : b.plain) (hby : b.borrowedBy ≠ "") :
    splitFields (saveBooksLine b) =
      [b.title, b.author, b.isbn, b.publisher, showInt b.year, b.status,
       showInt b.borrowDate, showInt b.dueDate, b.borrowedBy] := by
  obtain ⟨h1, h2, h3, h4, h5, h6, -, -, -⟩ := hp
  have hlast : ([] : List Char).reverse ++ b.borrowedBy.toList ≠ [] := by
    intro hc
    apply hby
    have : b.borrowedBy.data = [] := by simpa [String.toList] using hc
    exact String.ext this
  unfold splitFields
  rw [saveBooksLine_toList,
    getlineLoop_piece _ _ _ _ h1.1, getlineLoop_piece _ _ _ _ h2.1,
    getlineLoop_piece _ _ _ _ h3.1, getlineLoop_piece _ _ _ _ h4.1,
    getlineLoop_piece _ _ _ _ (showInt_chars b.year).2.1, getlineLoop_piece _ _ _ _ h5.1,
    getlineLoop_piece _ _ _ _ (showInt_chars b.borrowDate).2.1,
    getlineLoop_piece _ _ _ _ (showInt_chars b.dueDate).2.1,
    getlineLoop_last _ _ _ h6.1 hlast]
  simp [String.toList]

/-- A line that `saveBooks` wrote has at least eight characters and no line
break. -/
theorem saveBooksLine_shape (b : Book) (hp : b.plain) :
    8 ≤ (saveBooksLine b).length ∧ Char.ofNat 10 ∉ (saveBooksLine b).toList := by
  obtain ⟨h1, h2, h3, h4, h5, h6, -, -, -⟩ := hp
  constructor
  · have hlen : (saveBooksLine b).length = (saveBooksLine b).toList.length := rfl
    rw [hlen, saveBooksLine_toList]
    simp only [List.length_append, List.length_cons]
    omega
  · rw [saveBooksLine_toList]
    have hc : ¬ Char.ofNat 10 = ',' := by decide
    simp only [List.mem_append, List.mem_cons, not_or]
    exact ⟨h1.2, hc, h2.2, hc, h3.2, hc, h4.2, hc, (showInt_chars b.year).2.2, hc, h5.2, hc,
      (showInt_chars b.borrowDate).2.2, hc, (showInt_chars b.dueDate).2.2, hc, h6.2⟩

/-- What `loadBooksLine` does with a line of nine fields whose three numbers
`stoi` can read. -/
theorem loadBooksLine_of_fields (acc : List Book) (line t a i p y st bd dd bb : String)
    (yv bdv ddv : Int) (hlen : ¬ line.length < 5)
    (hf : splitFields line = [t, a, i, p, y, st, bd, dd, bb])
    (hy : stoi y = some yv) (hbd : stoi bd = some bdv) (hdd : stoi dd = some ddv) :
    loadBooksLine acc line =
      some (acc ++ [{ title := t, author := a, isbn := i, publisher := p, year := yv,
                      status := st, borrowDate := bdv, dueDate := ddv, borrowedBy := bb }]) := by
  unfold loadBooksLine
  rw [if_neg hlen, hf]
  have h9 : ¬ [t, a, i, p, y, st, bd, dd, bb].length < 9 := by simp
  simp only [if_neg h9, List.getD_cons_zero, List.getD_cons_succ, hy, hbd, hdd]
  rfl

/-- Reading back one line that `saveBooks` wrote gives the book it was written
from. -/
theorem loadBooksLine_saveBooksLine (acc : List Book) (b : Book) (hp : b.plain)
    (hby : b.borrowedBy ≠ "") :
    loadBooksLine acc (saveBooksLine b) = some (acc ++ [b]) := by
  have hlen : ¬ (saveBooksLine b).length < 5 := by
    have := (saveBooksLine_shape b hp).1
    omega
  exact loadBooksLine_of_fields acc _ _ _ _ _ _ _ _ _ _ _ _ _ hlen
    (splitFields_saveBooksLine b hp hby) (stoi_showInt b.year hp.2.2.2.2.2.2.1)
    (stoi_showInt b.borrowDate hp.2.2.2.2.2.2.2.1) (stoi_showInt b.dueDate hp.2.2.2.2.2.2.2.2)

/-- The lines `loadBooks` reads from what `saveBooks` wrote. -/
theorem fileLines_saveBooksLoop (books : List Book) (hp : ∀ b ∈ books, b.plain) :
    fileLines (saveBooksLoop books) = books.map saveBooksLine := by
  induction books with
  | nil => rfl
  | cons b rest ih =>
    obtain ⟨h8, hnl⟩ := saveBooksLine_shape b (hp b (List.mem_cons_self _ _))
    have hne : (saveBooksLine b).toList ≠ [] := by
      intro hc
      have hlen : (saveBooksLine b).length = (saveBooksLine b).toList.length := rfl
      rw [hlen, hc] at h8
      exact absurd h8 (by decide)
    unfold saveBooksLoop
    by_cases hr : rest = []
    · rw [if_pos hr, hr]
      unfold fileLines
      rw [getlineLoop_last _ _ _ hnl (by simpa using hne)]
      simp only [List.reverse_nil, List.nil_append, String.toList, List.map_cons, List.map_nil]
    · rw [if_neg hr]
      have hbreak : ("\n" : String).data = [Char.ofNat 10] := rfl
      have hchars : (saveBooksLine b ++ "\n" ++ saveBooksLoop rest).toList =
          (saveBooksLine b).toList ++ Char.ofNat 10 :: (saveBooksLoop rest).toList := by
        simp only [String.toList, String.data_append, hbreak, List.append_assoc,
          List.singleton_append]
      unfold fileLines
      rw [hchars, getlineLoop_piece _ _ _ _ hnl]
      have ih2 := ih (fun x hx => hp x (List.mem_cons_of_mem _ hx))
      unfold fileLines at ih2
      rw [ih2]
      simp only [List.reverse_nil, List.nil_append, String.toList, List.map_cons]

/-- Reading back the lines that `saveBooks` wrote adds the books they were
written from. -/
theorem loadBooksLoop_saved (books acc : List Book)
    (hp : ∀ b ∈ books, b.plain ∧ b.borrowedBy ≠ "") :
    loadBooksLoop acc (books.map saveBooksLine) = some (acc ++ books) := by
  induction books generalizing acc with
  | nil => simp [loadBooksLoop]
  | cons b rest ih =>
    obtain ⟨h1, h2⟩ := hp b (List.mem_cons_self _ _)
    rw [List.map_cons, loadBooksLoop, loadBooksLine_saveBooksLine acc b h1 h2]
    simp only
    rw [ih (acc ++ [b]) (fun x hx => hp x (List.mem_cons_of_mem _ hx))]
    simp

/-! ## Catalog persistence round trip -/

/-- C21, as stated, fails: a book held by a user whose `userID` is the empty
string has no comma and no line break in its text fields, but the line
`saveBooks` writes for it ends in a comma, the splitting loop of `loadBooks`
finds only eight fields in it, and the record is skipped. -/
theorem saveBooks_loadBooks_drops_empty_holder :
    (exLoan "T" "" 115).plain ∧
    saveBooks [exLoan "T" "" 115] = "T,Author,000,Press,2001,Borrowed,100,115," ∧
    (splitFields (saveBooks [exLoan "T" "" 115])).length = 8 ∧
    loadBooks [] "BookData.csv" (some (saveBooks [exLoan "T" "" 115])) = some ([], []) ∧
    loadBooks [] "BookData.csv" (some (saveBooks [exLoan "T" "" 115])) ≠
      some ([exLoan "T" "" 115], []) := by
  decide

/-- C21, amended: for every catalog whose six text fields contain no comma and
no line break, whose `borrowedBy` is not empty and whose three numbers are `int`
values, the text `saveBooks` writes has one line per book, each line has the
nine fields in the documented order, and `loadBooks` reads it back, into an
empty catalog, as the same sequence of books. -/
theorem saveBooks_loadBooks_round_trip (books : List Book) (fname : String)
    (hp : ∀ b ∈ books, b.plain ∧ b.borrowedBy ≠ "") :
    fileLines (saveBooks books) = books.map saveBooksLine ∧
    (∀ b ∈ books, splitFields (saveBooksLine b) =
      [b.title, b.author, b.isbn, b.publisher, showInt b.year, b.status,
       showInt b.borrowDate, showInt b.dueDate, b.borrowedBy]) ∧
    loadBooks [] fname (some (saveBooks books)) = some (books, []) := by
  have hlines := fileLines_saveBooksLoop books (fun b hb => (hp b hb).1)
  refine ⟨hlines, fun b hb => splitFields_saveBooksLine b (hp b hb).1 (hp b hb).2, ?_⟩
  unfold loadBooks saveBooks
  simp only [hlines, loadBooksLoop_saved books [] hp, List.nil_append]

/-- Witness for C21: an available book and a book on loan. -/
theorem saveBooks_loadBooks_round_trip_witness :
    (∀ b ∈ [exBook "T", exLoan "U" "s1" 115], b.plain ∧ b.borrowedBy ≠ "") ∧
    saveBooks [exBook "T", exLoan "U" "s1" 115] =
      "T,Author,000,Press,2001,Available,0,0,-None-\nU,Author,000,Press,2001,Borrowed,100,115,s1" ∧
    loadBooks [] "BookData.csv" (some (saveBooks [exBook "T", exLoan "U" "s1" 115])) =
      some ([exBook "T", exLoan "U" "s1" 115], []) :=
  ⟨by decide, by decide,
    (saveBooks_loadBooks_round_trip [exBook "T", exLoan "U" "s1" 115] "BookData.csv"
      (by decide)).2.2⟩

end LibrarySystem
